import Mathlib

/-!
Verification development for the AirBnB clone v3 REST API.

The development shallowly embeds the parts of the repository that the
checked properties speak about:

* `models/base_model.py` — `BaseModel.__init__`, `BaseModel.save`,
  `BaseModel.to_dict` (the serialization contract shared by all entities);
* the route handlers in `api/v1/views/` — the PUT update loops with their
  per-kind immutable-field lists, the POST creation handlers with their
  body validation, the Place–Amenity link handlers, and the
  `/places_search` handler.

A Python instance's `__dict__` is embedded as an association list from
attribute names to values (`Attrs`); `datetime` objects are embedded as a
record of calendar fields (`DateTime`), with `strftime`/`strptime` for the
single fixed format `%Y-%m-%dT%H:%M:%S.%f` implemented character by
character.  Fallible Python code (attribute errors, `strptime` failures)
is embedded in `Option`.

The entity classes and the storage engines are not part of the provided
sources; the few storage facts the handlers rely on (point lookup,
one-to-many views, the Place–Amenity association list) are modelled from
the specification and marked as such in their doc comments.
-/

/-- Association-list lookup: the value of the first entry with the given
key, `none` when absent.  Embeds Python attribute access / `dict.get`. -/
def assocGet {α : Type} : List (String × α) → String → Option α
  | [], _ => none
  | (k', v) :: rest, k => if k' = k then some v else assocGet rest k

/-- Association-list update: replaces the value at the first entry with the
given key, or appends a new entry.  Embeds Python `setattr` /
`dict.__setitem__` (existing keys keep their position, new keys go last). -/
def assocSet {α : Type} : List (String × α) → String → α → List (String × α)
  | [], k, v => [(k, v)]
  | (k', v') :: rest, k, v =>
      if k' = k then (k, v) :: rest else (k', v') :: assocSet rest k v

/-- Association-list deletion: removes every entry with the given key.
Embeds Python `del d[k]` / `d.pop(k, None)` on a dict (which holds at most
one entry per key). -/
def assocDel {α : Type} : List (String × α) → String → List (String × α)
  | [], _ => []
  | (k', v) :: rest, k =>
      if k' = k then assocDel rest k else (k', v) :: assocDel rest k

/-- Key list of an association list (a Python dict's key view). -/
def keysOf {α : Type} (l : List (String × α)) : List String :=
  l.map Prod.fst

/-- Calendar timestamp: the fields a Python `datetime` carries (to
microsecond precision), as used by `models/base_model.py`. -/
structure DateTime where
  year : Nat
  month : Nat
  day : Nat
  hour : Nat
  minute : Nat
  second : Nat
  micro : Nat
  deriving DecidableEq, Repr

/-- Field bounds under which the fixed textual format is faithful: each
field fits in its zero-padded digit budget of `%Y-%m-%dT%H:%M:%S.%f`.
Every value a Python `datetime` produces satisfies these. -/
def DateTime.Valid (d : DateTime) : Prop :=
  d.year < 10000 ∧ d.month < 100 ∧ d.day < 100 ∧ d.hour < 100 ∧
    d.minute < 100 ∧ d.second < 100 ∧ d.micro < 1000000

instance (d : DateTime) : Decidable d.Valid := by
  unfold DateTime.Valid
  infer_instance

/-- Two zero-padded decimal digits (`%m`, `%d`, `%H`, `%M`, `%S`). -/
def fmt2 (n : Nat) : List Char :=
  [Nat.digitChar (n / 10 % 10), Nat.digitChar (n % 10)]

/-- Four zero-padded decimal digits (`%Y`). -/
def fmt4 (n : Nat) : List Char :=
  [Nat.digitChar (n / 1000 % 10), Nat.digitChar (n / 100 % 10),
   Nat.digitChar (n / 10 % 10), Nat.digitChar (n % 10)]

/-- Six zero-padded decimal digits (`%f`). -/
def fmt6 (n : Nat) : List Char :=
  [Nat.digitChar (n / 100000 % 10), Nat.digitChar (n / 10000 % 10),
   Nat.digitChar (n / 1000 % 10), Nat.digitChar (n / 100 % 10),
   Nat.digitChar (n / 10 % 10), Nat.digitChar (n % 10)]

/-- Embeds `datetime.strftime(time)` for the repository's single format
constant `time = "%Y-%m-%dT%H:%M:%S.%f"` (`models/base_model.py`, line 17). -/
def fmtTime (d : DateTime) : String :=
  String.mk (fmt4 d.year ++ '-' :: (fmt2 d.month ++ '-' :: (fmt2 d.day ++
    'T' :: (fmt2 d.hour ++ ':' :: (fmt2 d.minute ++ ':' :: (fmt2 d.second ++
      '.' :: fmt6 d.micro))))))

/-- Numeric value of a digit character. -/
def charDigit (c : Char) : Nat := c.toNat - 48

/-- Value of two decimal digit characters. -/
def val2 (a b : Char) : Nat := charDigit a * 10 + charDigit b

/-- Value of four decimal digit characters. -/
def val4 (a b c d : Char) : Nat :=
  ((charDigit a * 10 + charDigit b) * 10 + charDigit c) * 10 + charDigit d

/-- Value of six decimal digit characters. -/
def val6 (a b c d e f : Char) : Nat :=
  ((((charDigit a * 10 + charDigit b) * 10 + charDigit c) * 10 +
    charDigit d) * 10 + charDigit e) * 10 + charDigit f

/-- Embeds `datetime.strptime(value, time)` for the fixed format: accepts
exactly the 26-character shape `YYYY-MM-DDTHH:MM:SS.ffffff` and fails
(`None`, embedding the raised `ValueError`) on anything else. -/
def parseTime (s : String) : Option DateTime :=
  match s.data with
  | [y1, y2, y3, y4, c1, a1, a2, c2, b1, b2, c3, h1, h2, c4, i1, i2, c5,
     s1, s2, c6, u1, u2, u3, u4, u5, u6] =>
    if c1 = '-' ∧ c2 = '-' ∧ c3 = 'T' ∧ c4 = ':' ∧ c5 = ':' ∧ c6 = '.' ∧
        y1.isDigit ∧ y2.isDigit ∧ y3.isDigit ∧ y4.isDigit ∧
        a1.isDigit ∧ a2.isDigit ∧ b1.isDigit ∧ b2.isDigit ∧
        h1.isDigit ∧ h2.isDigit ∧ i1.isDigit ∧ i2.isDigit ∧
        s1.isDigit ∧ s2.isDigit ∧ u1.isDigit ∧ u2.isDigit ∧
        u3.isDigit ∧ u4.isDigit ∧ u5.isDigit ∧ u6.isDigit then
      some ⟨val4 y1 y2 y3 y4, val2 a1 a2, val2 b1 b2, val2 h1 h2,
            val2 i1 i2, val2 s1 s2, val6 u1 u2 u3 u4 u5 u6⟩
    else
      none
  | _ => none

/-- Attribute values a request body or an instance `__dict__` can hold in
this development: strings, `datetime` objects, integers, booleans and
lists of strings (the shapes the handlers under `api/v1/views/` consume). -/
inductive Val where
  | vStr : String → Val
  | vTime : DateTime → Val
  | vInt : Int → Val
  | vBool : Bool → Val
  | vList : List String → Val
  deriving DecidableEq, Repr

/-- A Python instance `__dict__` (or a parsed JSON object body): an
insertion-ordered mapping from attribute names to values. -/
abbrev Attrs := List (String × Val)

/-- One `strftime` rewrite of `BaseModel.to_dict`
(`models/base_model.py`, lines 111 to 115): when the key is present its
value is rendered through the fixed format; a present non-`datetime`
value raises (`strftime` does not exist on it), embedded as `none`. -/
def strfStep (m : Attrs) (k : String) : Option Attrs :=
  match assocGet m k with
  | none => some m
  | some (Val.vTime t) => some (assocSet m k (Val.vStr (fmtTime t)))
  | some _ => none

/-- Embeds `BaseModel.to_dict(secure_pwd)` (`models/base_model.py`, lines
97 to 126): copy the `__dict__`, render `created_at` and `updated_at`
through the fixed format, add the `__class__` discriminator, drop the
`_sa_instance_state` bookkeeping entry, and drop `password` when
`secure_pwd` is true. -/
def to_dict (className : String) (secure_pwd : Bool) (attrs : Attrs) : Option Attrs :=
  match strfStep attrs "created_at" with
  | none => none
  | some d1 =>
    match strfStep d1 "updated_at" with
    | none => none
    | some d2 =>
      let d3 := assocSet d2 "__class__" (Val.vStr className)
      let d4 := assocDel d3 "_sa_instance_state"
      if secure_pwd then some (assocDel d4 "password") else some d4

/-- One `strptime` conversion inside the `BaseModel.__init__` kwargs loop
(`models/base_model.py`, lines 66 to 70): when the named attribute
currently holds a string it is parsed with the fixed format (a parse
failure raises, embedded as `none`); any other value is left alone. -/
def fixTime (m : Attrs) (k : String) : Option Attrs :=
  match assocGet m k with
  | some (Val.vStr s) =>
    match parseTime s with
    | some t => some (assocSet m k (Val.vTime t))
    | none => none
  | _ => some m

/-- One iteration of the `BaseModel.__init__` kwargs loop
(`models/base_model.py`, lines 59 to 70): skip `__class__`, set the
attribute, then re-parse `created_at` and `updated_at` whenever they are
strings. -/
def initStep (m : Attrs) (kv : String × Val) : Option Attrs :=
  if kv.1 = "__class__" then some m
  else
    match fixTime (assocSet m kv.1 kv.2) "created_at" with
    | none => none
    | some m2 => fixTime m2 "updated_at"

/-- Embeds `BaseModel.__init__` (`models/base_model.py`, lines 44 to 70):
generated id, `created_at` from the current clock, `updated_at` equal to
`created_at`, then the kwargs loop.  `genId` and `now` stand for the
ambient `uuid4()` and `datetime.now()` reads. -/
def baseInit (genId : String) (now : DateTime) (kwargs : Attrs) : Option Attrs :=
  kwargs.foldlM initStep
    [("id", Val.vStr genId), ("created_at", Val.vTime now),
     ("updated_at", Val.vTime now)]

/-- Embeds the attribute mutation of `BaseModel.save`
(`models/base_model.py`, line 91): `updated_at` is set to the current
`datetime.utcnow()` read before the storage flush (which mutates no
attribute). -/
def modelSave (utcNow : DateTime) (e : Attrs) : Attrs :=
  assocSet e "updated_at" (Val.vTime utcNow)

/-- Clock state for the timestamp-ordering model: `datetime` reads placed
on one Int timeline (microseconds); `datetime.utcnow()` reads `utc`,
`datetime.now()` reads `utc + tzOffset` where `tzOffset` is the process
local-timezone offset. -/
structure Clock where
  utc : Int
  tzOffset : Int
  deriving DecidableEq, Repr

/-- The `datetime.now()` read: local time. -/
def Clock.localNow (c : Clock) : Int := c.utc + c.tzOffset

/-- The timestamp pair of one entity on the Int timeline. -/
structure Stamps where
  created_at : Int
  updated_at : Int
  deriving DecidableEq, Repr

/-- Timestamp effect of `BaseModel.__init__` without kwargs overrides
(`models/base_model.py`, lines 55 to 57): `created_at` is read from
`datetime.now()` (local time) and `updated_at` starts equal to it. -/
def stampsInit (c : Clock) : Stamps :=
  { created_at := c.localNow, updated_at := c.localNow }

/-- Timestamp effect of `BaseModel.save` (`models/base_model.py`, line
91): `updated_at` is read from `datetime.utcnow()` (UTC). -/
def stampsSave (c : Clock) (s : Stamps) : Stamps :=
  { s with updated_at := c.utc }

/-- HTTP-level outcome of one handler call, as produced by the view
functions: `jsonify(obj)` with 200, `jsonify(list)` with 200, `jsonify`
of the empty object with 200, 201 creation, 400 with an error message,
`abort(404)`, and an unhandled Python exception (HTTP 500). -/
inductive HResp where
  | ok : Attrs → HResp
  | okList : List Attrs → HResp
  | okEmpty : HResp
  | created : Attrs → HResp
  | badRequest : String → HResp
  | notFound : HResp
  | serverError : HResp
  deriving DecidableEq, Repr

/-- Truthiness test the handlers apply to a parsed body:
`if not request.get_json()` is true when parsing failed (`None`) and when
the parsed object is empty (falsy). -/
def jsonFalsy : Option Attrs → Bool
  | none => true
  | some d => d.isEmpty

/-- Python `key in dict` on a parsed JSON object. -/
def hasKey (m : Attrs) (k : String) : Bool :=
  (assocGet m k).isSome

/-- The six entity kinds served by the API. -/
inductive EKind where
  | kState
  | kCity
  | kAmenity
  | kUser
  | kPlace
  | kReview
  deriving DecidableEq, Repr

/-- The `__class__.__name__` discriminator of each kind. -/
def className : EKind → String
  | .kState => "State"
  | .kCity => "City"
  | .kAmenity => "Amenity"
  | .kUser => "User"
  | .kPlace => "Place"
  | .kReview => "Review"

/-- The literal skip list of each PUT handler's update loop, verbatim from
the source: `states.py` line 156, `cities.py` line 189, `amenities.py`
line 161, `users.py` line 165, `places.py` line 202 and
`places_reviews.py` line 183 (the last two really say `'updated'`, not
`'updated_at'`). -/
def putSkip : EKind → List String
  | .kState => ["id", "created_at", "updated_at"]
  | .kCity => ["id", "state_id", "created_at", "updated_at"]
  | .kAmenity => ["id", "created_at", "updated_at"]
  | .kUser => ["id", "email", "created_at", "updated_at"]
  | .kPlace => ["id", "user_id", "city_id", "created_at", "updated"]
  | .kReview => ["id", "user_id", "place_id", "created_at", "updated"]

/-- The PUT update loop (`for key, value in request.get_json().items(): if
key not in [...]: setattr(obj, key, value)`) shared by all six PUT
handlers. -/
def putApply (skip : List String) (body : Attrs) (obj : Attrs) : Attrs :=
  body.foldl (fun o kv => if kv.1 ∈ skip then o else assocSet o kv.1 kv.2) obj

/-- Embeds the six PUT handlers (`post_method`, `post_city`,
`post_amenity`, `post_user`, `post_place`, `post_review`): body
truthiness check, storage lookup (its result is passed in), the update
loop, `storage.save()` (no attribute effect), then `jsonify(obj.to_dict())`
with 200 — which raises (500) when an overwritten timestamp no longer
holds a `datetime`.  Returns the response and the stored object after the
request. -/
def putHandler (k : EKind) (lookup : Option Attrs) (body : Option Attrs) :
    HResp × Option Attrs :=
  if jsonFalsy body then (.badRequest "Not a JSON", lookup)
  else
    match lookup with
    | none => (.notFound, none)
    | some obj =>
      let obj2 := putApply (putSkip k) (body.getD []) obj
      match to_dict (className k) true obj2 with
      | some d => (.ok d, some obj2)
      | none => (.serverError, some obj2)

/-- Ambient nondeterministic reads of one creation request: the generated
`uuid4()`, the `datetime.now()` read inside `__init__`, and the
`datetime.utcnow()` read inside `save`. -/
structure Ctx where
  genId : String
  now : DateTime
  utcNow : DateTime
  deriving Repr

/-- Embeds `create_obj` (`states.py`, lines 92 to 121): body truthiness
check, required `name` check, `State(**js)`, `obj.save()`, 201 with the
serialized entity. -/
def create_obj (ctx : Ctx) (body : Option Attrs) : HResp × Option Attrs :=
  if jsonFalsy body then (.badRequest "Not a JSON", none)
  else if ¬ hasKey (body.getD []) "name" then (.badRequest "Missing name", none)
  else
    match baseInit ctx.genId ctx.now (body.getD []) with
    | none => (.serverError, none)
    | some e =>
      let e2 := modelSave ctx.utcNow e
      match to_dict "State" true e2 with
      | some d => (.created d, some e2)
      | none => (.serverError, some e2)

/-- Embeds `create_obj_amenity` (`amenities.py`, lines 97 to 126): same
shape as the State creator with the `Amenity` class. -/
def create_obj_amenity (ctx : Ctx) (body : Option Attrs) : HResp × Option Attrs :=
  if jsonFalsy body then (.badRequest "Not a JSON", none)
  else if ¬ hasKey (body.getD []) "name" then (.badRequest "Missing name", none)
  else
    match baseInit ctx.genId ctx.now (body.getD []) with
    | none => (.serverError, none)
    | some e =>
      let e2 := modelSave ctx.utcNow e
      match to_dict "Amenity" true e2 with
      | some d => (.created d, some e2)
      | none => (.serverError, some e2)

/-- Embeds `create_obj_user` (`users.py`, lines 97 to 130): body
truthiness check, required `email` then `password` checks, `User(**js)`,
`obj.save()`, 201 with the serialized entity (whose `password` key is
masked by `to_dict`). -/
def create_obj_user (ctx : Ctx) (body : Option Attrs) : HResp × Option Attrs :=
  if jsonFalsy body then (.badRequest "Not a JSON", none)
  else if ¬ hasKey (body.getD []) "email" then (.badRequest "Missing email", none)
  else if ¬ hasKey (body.getD []) "password" then (.badRequest "Missing password", none)
  else
    match baseInit ctx.genId ctx.now (body.getD []) with
    | none => (.serverError, none)
    | some e =>
      let e2 := modelSave ctx.utcNow e
      match to_dict "User" true e2 with
      | some d => (.created d, some e2)
      | none => (.serverError, some e2)

/-- A resident Place: its `__dict__` plus the Place–Amenity association.
Modelled from the spec: §4.2 backs the many-to-many relation by "an
explicit association structure (list of linked ids for the in-memory
strategy)" supporting add/remove/contains; the identity-map invariant
(§4.2) makes membership of an Amenity object in `place.amenities`
coincide with membership of its id in this list. -/
structure PlaceRec where
  attrs : Attrs
  amenity_ids : List String
  deriving DecidableEq, Repr

/-- Resident entities of the storage engine, one identity map per kind.
Modelled from the spec: §4.2 `get(kind, id)` is a point lookup over the
identity map, returning absent (never an error) when no match exists; the
maps are keyed by entity id. -/
structure Storage where
  states : List (String × Attrs)
  cities : List (String × Attrs)
  users : List (String × Attrs)
  amenities : List (String × Attrs)
  places : List (String × PlaceRec)
  reviews : List (String × Attrs)
  deriving Repr

/-- Modelled from the spec: the one-to-many view `state.cities` is
"computed lazily by scanning resident entities of the child kind and
filtering on the foreign-key field" (§4.2 Relationship resolution). -/
def stateCities (st : Storage) (state : Attrs) : List Attrs :=
  (st.cities.map Prod.snd).filter
    (fun c => decide (assocGet c "state_id" = assocGet state "id"))

/-- Modelled from the spec: the one-to-many view `city.places`, scanning
resident Places and filtering on `city_id` (§4.2 Relationship
resolution). -/
def cityPlaces (st : Storage) (city : Attrs) : List PlaceRec :=
  (st.places.map Prod.snd).filter
    (fun p => decide (assocGet p.attrs "city_id" = assocGet city "id"))

/-- Embeds `create_obj_city` (`cities.py`, lines 111 to 154): State
lookup first (404 before any body validation), body truthiness check,
required `name` check, `City(**js)`, then `obj.state_id = state.id`
forced from the URL, `obj.save()`, 201 with the serialized entity. -/
def create_obj_city (st : Storage) (state_id : String) (body : Option Attrs)
    (ctx : Ctx) : HResp × Option Attrs :=
  match assocGet st.states state_id with
  | none => (.notFound, none)
  | some state =>
    if jsonFalsy body then (.badRequest "Not a JSON", none)
    else if ¬ hasKey (body.getD []) "name" then (.badRequest "Missing name", none)
    else
      match baseInit ctx.genId ctx.now (body.getD []) with
      | none => (.serverError, none)
      | some e =>
        match assocGet state "id" with
        | none => (.serverError, none)
        | some sid =>
          let e2 := modelSave ctx.utcNow (assocSet e "state_id" sid)
          match to_dict "City" true e2 with
          | some d => (.created d, some e2)
          | none => (.serverError, some e2)

/-- Embeds `create_obj_place` (`places.py`, lines 113 to 167): City
lookup first, body truthiness check, required `user_id` then `name`
checks, `kwargs['city_id'] = city_id` forced from the URL before
construction, User existence check on the body's `user_id` (404 when
absent; a non-string id finds no User), `Place(**kwargs)`, `obj.save()`,
201 with the serialized entity. -/
def create_obj_place (st : Storage) (city_id : String) (body : Option Attrs)
    (ctx : Ctx) : HResp × Option Attrs :=
  match assocGet st.cities city_id with
  | none => (.notFound, none)
  | some _ =>
    if jsonFalsy body then (.badRequest "Not a JSON", none)
    else if ¬ hasKey (body.getD []) "user_id" then (.badRequest "Missing user_id", none)
    else if ¬ hasKey (body.getD []) "name" then (.badRequest "Missing name", none)
    else
      let kwargs := assocSet (body.getD []) "city_id" (Val.vStr city_id)
      let userFound : Option Attrs :=
        match assocGet kwargs "user_id" with
        | some (Val.vStr uid) => assocGet st.users uid
        | _ => none
      match userFound with
      | none => (.notFound, none)
      | some _ =>
        match baseInit ctx.genId ctx.now kwargs with
        | none => (.serverError, none)
        | some e =>
          let e2 := modelSave ctx.utcNow e
          match to_dict "Place" true e2 with
          | some d => (.created d, some e2)
          | none => (.serverError, some e2)

/-- Embeds `create_obj_review` (`places_reviews.py`, lines 103 to 151):
Place lookup first, body truthiness check, required `user_id` then `text`
checks, `kwargs['place_id'] = place_id` forced from the URL before
construction, User existence check, `Review(**kwargs)`, `obj.save()`,
201 with the serialized entity. -/
def create_obj_review (st : Storage) (place_id : String) (body : Option Attrs)
    (ctx : Ctx) : HResp × Option Attrs :=
  match assocGet st.places place_id with
  | none => (.notFound, none)
  | some _ =>
    if jsonFalsy body then (.badRequest "Not a JSON", none)
    else if ¬ hasKey (body.getD []) "user_id" then (.badRequest "Missing user_id", none)
    else if ¬ hasKey (body.getD []) "text" then (.badRequest "Missing text", none)
    else
      let kwargs := assocSet (body.getD []) "place_id" (Val.vStr place_id)
      let userFound : Option Attrs :=
        match assocGet kwargs "user_id" with
        | some (Val.vStr uid) => assocGet st.users uid
        | _ => none
      match userFound with
      | none => (.notFound, none)
      | some _ =>
        match baseInit ctx.genId ctx.now kwargs with
        | none => (.serverError, none)
        | some e =>
          let e2 := modelSave ctx.utcNow e
          match to_dict "Review" true e2 with
          | some d => (.created d, some e2)
          | none => (.serverError, some e2)

/-- Embeds `post_amenity2` (`places_amenities.py`, lines 92 to 131):
Place lookup, Amenity lookup, 200 with the amenity when already linked,
otherwise append the link, `storage.save()`, 201 with the amenity.
Returns the response and the storage after the request. -/
def post_amenity2 (st : Storage) (place_id amenity_id : String) :
    HResp × Storage :=
  match assocGet st.places place_id with
  | none => (.notFound, st)
  | some pl =>
    match assocGet st.amenities amenity_id with
    | none => (.notFound, st)
    | some am =>
      if amenity_id ∈ pl.amenity_ids then
        match to_dict "Amenity" true am with
        | some d => (.ok d, st)
        | none => (.serverError, st)
      else
        let pl2 : PlaceRec := { pl with amenity_ids := pl.amenity_ids ++ [amenity_id] }
        let st2 : Storage := { st with places := assocSet st.places place_id pl2 }
        match to_dict "Amenity" true am with
        | some d => (.created d, st2)
        | none => (.serverError, st2)

/-- Embeds `delete_amenity` (`places_amenities.py`, lines 49 to 86):
Place lookup, Amenity lookup, 404 when the amenity is not linked to the
place, otherwise `place.amenities.remove(amenity)` (first occurrence),
`storage.save()`, 200 with the empty object. -/
def delete_amenity (st : Storage) (place_id amenity_id : String) :
    HResp × Storage :=
  match assocGet st.places place_id with
  | none => (.notFound, st)
  | some pl =>
    match assocGet st.amenities amenity_id with
    | none => (.notFound, st)
    | some _ =>
      if amenity_id ∈ pl.amenity_ids then
        let pl2 : PlaceRec := { pl with amenity_ids := pl.amenity_ids.erase amenity_id }
        (.okEmpty, { st with places := assocSet st.places place_id pl2 })
      else
        (.notFound, st)

/-- Python truthiness of `data.get(key, None)`: `None` and empty
containers are falsy (`not states` in `places.py`). -/
def valFalsy : Option Val → Bool
  | none => true
  | some (Val.vList l) => l.isEmpty
  | some (Val.vStr s) => s.isEmpty
  | some (Val.vInt n) => decide (n = 0)
  | some (Val.vBool b) => !b
  | some (Val.vTime _) => false

/-- The states loop of `search_places_by_id` (`places.py`, lines 255 to
263): for each given id, when a State is found append every Place of
every City of that State (no duplicate check in this loop). -/
def searchStates (st : Storage) (sids : List String) : List PlaceRec :=
  sids.foldl
    (fun acc sid =>
      match assocGet st.states sid with
      | none => acc
      | some state =>
        (stateCities st state).foldl
          (fun a c => a ++ cityPlaces st c) acc)
    []

/-- The cities loop of `search_places_by_id` (`places.py`, lines 266 to
273): for each given id, when a City is found append each of its Places
not already collected. -/
def searchCities (st : Storage) (cids : List String) (acc0 : List PlaceRec) :
    List PlaceRec :=
  cids.foldl
    (fun acc cid =>
      match assocGet st.cities cid with
      | none => acc
      | some c =>
        (cityPlaces st c).foldl
          (fun a p => if p ∈ a then a else a ++ [p]) acc)
    acc0

/-- The amenities filter of `search_places_by_id` (`places.py`, lines 276
to 283): keep the places containing every requested amenity; an id
naming no resident Amenity is fetched as `None`, which no place
contains. -/
def amenityFilter (st : Storage) (aids : List String) (pls : List PlaceRec) :
    List PlaceRec :=
  pls.filter
    (fun p => aids.all
      (fun aid =>
        match assocGet st.amenities aid with
        | some _ => decide (aid ∈ p.amenity_ids)
        | none => false))

/-- Serialization of a list of entities, as the list comprehensions
`[obj.to_dict() for obj in ...]` do; a single failing `to_dict` raises
(500). -/
def serializeAll (className : String) : List Attrs → Option (List Attrs)
  | [] => some []
  | o :: rest =>
    match to_dict className true o, serializeAll className rest with
    | some d, some ds => some (d :: ds)
    | _, _ => none

/-- Embeds `search_places_by_id` (`places.py`, lines 215 to 294).  The 400
check tests the parsed value against `None` only, so a parseable falsy
body passes.  With an empty body or no truthy filter value, every
resident Place is returned.  Otherwise the three filter loops run and the
survivors are serialized with their `amenities` key popped.  Filter
values that are present, truthy and not lists make the source iterate a
non-list; that path is outside this model and mapped to `serverError`
(it never produces a 200 list or a 400). -/
def search_places (st : Storage) (body : Option Attrs) : HResp :=
  match body with
  | none => .badRequest "Not a JSON"
  | some data =>
    let states := assocGet data "states"
    let cities := assocGet data "cities"
    let amenities := assocGet data "amenities"
    if data.isEmpty ∨ (valFalsy states ∧ valFalsy cities ∧ valFalsy amenities) then
      match serializeAll "Place" (st.places.map (fun p => p.2.attrs)) with
      | some ds => .okList ds
      | none => .serverError
    else
      let okShape : Option Val → Bool :=
        fun v => match v with
          | none => true
          | some (Val.vList _) => true
          | some w => valFalsy (some w)
      if okShape states ∧ okShape cities ∧ okShape amenities then
        let l1 : List PlaceRec :=
          match states with
          | some (Val.vList sids) => searchStates st sids
          | _ => []
        let l2 : List PlaceRec :=
          match cities with
          | some (Val.vList cids) =>
            if cids.isEmpty then l1 else searchCities st cids l1
          | _ => l1
        let l3 : List PlaceRec :=
          match amenities with
          | some (Val.vList aids) =>
            if aids.isEmpty then l2
            else amenityFilter st aids (if l2.isEmpty then st.places.map Prod.snd else l2)
          | _ => l2
        match serializeAll "Place" (l3.map PlaceRec.attrs) with
        | some ds => .okList (ds.map (fun d => assocDel d "amenities"))
        | none => .serverError
      else
        .serverError

/-- Embeds the collection GET handlers (`get_all`, `get_all_users`,
`get_all_amenities`, ...): `jsonify([obj.to_dict() for obj in
storage.all(Kind).values()])` — every element is serialized with the
default `secure_pwd=True`. -/
def get_all (className : String) (objs : List Attrs) : HResp :=
  match serializeAll className objs with
  | some ds => .okList ds
  | none => .serverError

/-- The value an entry carries after one `__init__` loop iteration sets
it: a string under `created_at`/`updated_at` is parsed by `strptime`
(kept verbatim when unparseable — such an entry makes `initStep` fail
instead); every other entry is kept verbatim. -/
def trV (k : String) (v : Val) : Val :=
  if k = "created_at" ∨ k = "updated_at" then
    match v with
    | Val.vStr s =>
      match parseTime s with
      | some t => Val.vTime t
      | none => Val.vStr s
    | w => w
  else v

/-- A kwargs entry the `__init__` loop is known to process cleanly here:
an entry under a timestamp key is a string that parses with the fixed
format (entries under other keys are unconstrained). -/
def TrOK (kv : String × Val) : Prop :=
  (kv.1 = "created_at" ∨ kv.1 = "updated_at") →
    ∃ s t, kv.2 = Val.vStr s ∧ parseTime s = some t

/-- Loop invariant of `__init__`: the two timestamp attributes never hold
a string between iterations (each iteration re-parses them). -/
def NoStrTimes (m : Attrs) : Prop :=
  (∀ s, assocGet m "created_at" ≠ some (Val.vStr s)) ∧
  (∀ s, assocGet m "updated_at" ≠ some (Val.vStr s))


@[simp] theorem keysOf_nil {α : Type} : keysOf ([] : List (String × α)) = [] := rfl

@[simp] theorem keysOf_cons {α : Type} (p : String × α) (l : List (String × α)) :
    keysOf (p :: l) = p.1 :: keysOf l := rfl

theorem assocGet_set_self {α : Type} (l : List (String × α)) (k : String) (v : α) :
    assocGet (assocSet l k v) k = some v := by
  induction l with
  | nil => simp [assocGet, assocSet]
  | cons p rest ih =>
    by_cases h : p.1 = k
    · simp [assocSet, h, assocGet]
    · simp [assocSet, h, assocGet, ih]

theorem assocGet_set_ne {α : Type} (l : List (String × α)) (k k' : String) (v : α)
    (h : k' ≠ k) : assocGet (assocSet l k v) k' = assocGet l k' := by
  induction l with
  | nil => simp [assocGet, assocSet, Ne.symm h]
  | cons p rest ih =>
    by_cases hp : p.1 = k
    · simp [assocSet, hp, assocGet, Ne.symm h]
    · by_cases hq : p.1 = k'
      · simp [assocSet, hp, assocGet, hq, h]
      · simp [assocSet, hp, assocGet, hq, ih]

theorem assocGet_del_self {α : Type} (l : List (String × α)) (k : String) :
    assocGet (assocDel l k) k = none := by
  induction l with
  | nil => simp [assocGet, assocDel]
  | cons p rest ih =>
    by_cases h : p.1 = k
    · simpa [assocDel, h] using ih
    · simpa [assocDel, h, assocGet] using ih

theorem assocGet_del_ne {α : Type} (l : List (String × α)) (k k' : String)
    (h : k' ≠ k) : assocGet (assocDel l k) k' = assocGet l k' := by
  induction l with
  | nil => simp [assocGet, assocDel]
  | cons p rest ih =>
    by_cases hp : p.1 = k
    · simpa [assocDel, hp, assocGet, Ne.symm h] using ih
    · by_cases hq : p.1 = k'
      · simp [assocDel, hp, assocGet, hq, h]
      · simpa [assocDel, hp, assocGet, hq] using ih

theorem assocGet_mem_keys {α : Type} (l : List (String × α)) (k : String) (v : α)
    (h : assocGet l k = some v) : k ∈ keysOf l := by
  induction l with
  | nil => simp [assocGet] at h
  | cons p rest ih =>
    by_cases hp : p.1 = k
    · simp [hp]
    · simp [assocGet, hp] at h
      simpa using Or.inr (ih h)

theorem assocGet_eq_none_of_not_mem {α : Type} (l : List (String × α)) (k : String)
    (h : k ∉ keysOf l) : assocGet l k = none := by
  induction l with
  | nil => rfl
  | cons p rest ih =>
    simp only [keysOf_cons, List.mem_cons] at h
    push_neg at h
    have hp : p.1 ≠ k := fun hh => h.1 hh.symm
    simp only [assocGet, if_neg hp]
    exact ih h.2

theorem assocGet_of_mem_nodup {α : Type} (l : List (String × α)) (k : String) (v : α)
    (hnd : (keysOf l).Nodup) (hmem : (k, v) ∈ l) : assocGet l k = some v := by
  induction l with
  | nil => simp at hmem
  | cons p rest ih =>
    simp only [keysOf_cons, List.nodup_cons] at hnd
    rcases List.mem_cons.mp hmem with heq | htail
    · rw [← heq]
      simp [assocGet]
    · have hk : k ∈ keysOf rest := List.mem_map.mpr ⟨(k, v), htail, rfl⟩
      have hp : p.1 ≠ k := fun hh => hnd.1 (hh ▸ hk)
      simp only [assocGet, if_neg hp]
      exact ih hnd.2 htail

theorem keysOf_assocSet {α : Type} (l : List (String × α)) (k : String) (v : α) :
    keysOf (assocSet l k v) =
      if k ∈ keysOf l then keysOf l else keysOf l ++ [k] := by
  induction l with
  | nil => simp [assocSet]
  | cons p rest ih =>
    by_cases hp : p.1 = k
    · simp [assocSet, hp]
    · have hk : p.1 ≠ k := hp
      simp only [assocSet, if_neg hp, keysOf_cons, ih, List.mem_cons]
      by_cases hm : k ∈ keysOf rest
      · simp [hm, Ne.symm hk]
      · simp [hm, Ne.symm hk]

theorem nodup_keys_assocSet {α : Type} (l : List (String × α)) (k : String) (v : α)
    (hnd : (keysOf l).Nodup) : (keysOf (assocSet l k v)).Nodup := by
  rw [keysOf_assocSet]
  by_cases hm : k ∈ keysOf l
  · simpa [hm] using hnd
  · simp [hm, List.nodup_append, hnd]

theorem isDigit_digitChar (n : Nat) (h : n < 10) : (Nat.digitChar n).isDigit = true := by
  interval_cases n <;> decide

theorem charDigit_digitChar (n : Nat) (h : n < 10) : charDigit (Nat.digitChar n) = n := by
  interval_cases n <;> decide

theorem val2_fmt2 (n : Nat) (h : n < 100) :
    val2 (Nat.digitChar (n / 10 % 10)) (Nat.digitChar (n % 10)) = n := by
  unfold val2
  rw [charDigit_digitChar _ (Nat.mod_lt _ (by norm_num)),
      charDigit_digitChar _ (Nat.mod_lt _ (by norm_num))]
  omega

theorem val4_fmt4 (n : Nat) (h : n < 10000) :
    val4 (Nat.digitChar (n / 1000 % 10)) (Nat.digitChar (n / 100 % 10))
      (Nat.digitChar (n / 10 % 10)) (Nat.digitChar (n % 10)) = n := by
  unfold val4
  rw [charDigit_digitChar _ (Nat.mod_lt _ (by norm_num)),
      charDigit_digitChar _ (Nat.mod_lt _ (by norm_num)),
      charDigit_digitChar _ (Nat.mod_lt _ (by norm_num)),
      charDigit_digitChar _ (Nat.mod_lt _ (by norm_num))]
  omega

theorem val6_fmt6 (n : Nat) (h : n < 1000000) :
    val6 (Nat.digitChar (n / 100000 % 10)) (Nat.digitChar (n / 10000 % 10))
      (Nat.digitChar (n / 1000 % 10)) (Nat.digitChar (n / 100 % 10))
      (Nat.digitChar (n / 10 % 10)) (Nat.digitChar (n % 10)) = n := by
  unfold val6
  rw [charDigit_digitChar _ (Nat.mod_lt _ (by norm_num)),
      charDigit_digitChar _ (Nat.mod_lt _ (by norm_num)),
      charDigit_digitChar _ (Nat.mod_lt _ (by norm_num)),
      charDigit_digitChar _ (Nat.mod_lt _ (by norm_num)),
      charDigit_digitChar _ (Nat.mod_lt _ (by norm_num)),
      charDigit_digitChar _ (Nat.mod_lt _ (by norm_num))]
  omega

theorem parseTime_fmtTime (d : DateTime) (h : d.Valid) :
    parseTime (fmtTime d) = some d := by
  obtain ⟨h1, h2, h3, h4, h5, h6, h7⟩ := h
  have hd : ∀ m : Nat, (Nat.digitChar (m % 10)).isDigit = true :=
    fun m => isDigit_digitChar _ (Nat.mod_lt _ (by norm_num))
  show parseTime (String.mk _) = some d
  rw [parseTime]
  simp only [fmt4, fmt2, fmt6, List.cons_append, List.nil_append]
  rw [if_pos]
  · rw [val4_fmt4 _ h1, val2_fmt2 _ h2, val2_fmt2 _ h3, val2_fmt2 _ h4,
        val2_fmt2 _ h5, val2_fmt2 _ h6, val6_fmt6 _ h7]
  · refine ⟨trivial, trivial, trivial, trivial, trivial, trivial, ?_, ?_, ?_,
      ?_, ?_, ?_, ?_, ?_, ?_, ?_, ?_, ?_, ?_, ?_, ?_, ?_, ?_, ?_, ?_, ?_⟩ <;>
      exact hd _

theorem strfStep_get_ne (m m' : Attrs) (k k' : String)
    (h : strfStep m k = some m') (hne : k' ≠ k) :
    assocGet m' k' = assocGet m k' := by
  unfold strfStep at h
  split at h
  · injection h with h
    rw [← h]
  · injection h with h
    rw [← h]
    exact assocGet_set_ne _ _ _ _ hne
  · exact absurd h (by simp)

theorem strfStep_get_self (m m' : Attrs) (k : String) (t : DateTime)
    (h : strfStep m k = some m') (hg : assocGet m k = some (Val.vTime t)) :
    assocGet m' k = some (Val.vStr (fmtTime t)) := by
  unfold strfStep at h
  rw [hg] at h
  simp at h
  rw [← h]
  exact assocGet_set_self _ _ _

theorem to_dict_eq (cn : String) (sec : Bool) (attrs d : Attrs)
    (h : to_dict cn sec attrs = some d) :
    ∃ d1 d2, strfStep attrs "created_at" = some d1 ∧
      strfStep d1 "updated_at" = some d2 ∧
      d = (if sec then
             assocDel (assocDel (assocSet d2 "__class__" (Val.vStr cn))
               "_sa_instance_state") "password"
           else
             assocDel (assocSet d2 "__class__" (Val.vStr cn))
               "_sa_instance_state") := by
  unfold to_dict at h
  split at h
  · exact absurd h (by simp)
  · rename_i d1 hc
    split at h
    · exact absurd h (by simp)
    · rename_i d2 hu
      split at h
      · rename_i hsec
        exact ⟨d1, d2, hc, hu, by rw [if_pos hsec]; exact (Option.some.inj h).symm⟩
      · rename_i hsec
        exact ⟨d1, d2, hc, hu, by rw [if_neg hsec]; exact (Option.some.inj h).symm⟩

theorem to_dict_class (cn : String) (sec : Bool) (attrs d : Attrs)
    (h : to_dict cn sec attrs = some d) :
    assocGet d "__class__" = some (Val.vStr cn) := by
  obtain ⟨d1, d2, hc, hu, hd⟩ := to_dict_eq cn sec attrs d h
  subst hd
  cases sec with
  | true =>
    rw [if_pos rfl, assocGet_del_ne _ _ _ (by decide),
        assocGet_del_ne _ _ _ (by decide)]
    exact assocGet_set_self _ _ _
  | false =>
    rw [if_neg Bool.false_ne_true, assocGet_del_ne _ _ _ (by decide)]
    exact assocGet_set_self _ _ _

theorem to_dict_sa (cn : String) (sec : Bool) (attrs d : Attrs)
    (h : to_dict cn sec attrs = some d) :
    assocGet d "_sa_instance_state" = none := by
  obtain ⟨d1, d2, hc, hu, hd⟩ := to_dict_eq cn sec attrs d h
  subst hd
  cases sec with
  | true =>
    rw [if_pos rfl, assocGet_del_ne _ _ _ (by decide)]
    exact assocGet_del_self _ _
  | false =>
    rw [if_neg Bool.false_ne_true]
    exact assocGet_del_self _ _

theorem to_dict_password_masked (cn : String) (attrs d : Attrs)
    (h : to_dict cn true attrs = some d) :
    assocGet d "password" = none := by
  obtain ⟨d1, d2, hc, hu, hd⟩ := to_dict_eq cn true attrs d h
  subst hd
  rw [if_pos rfl]
  exact assocGet_del_self _ _

theorem to_dict_password_plain (cn : String) (attrs d : Attrs)
    (h : to_dict cn false attrs = some d) :
    assocGet d "password" = assocGet attrs "password" := by
  obtain ⟨d1, d2, hc, hu, hd⟩ := to_dict_eq cn false attrs d h
  subst hd
  rw [if_neg Bool.false_ne_true, assocGet_del_ne _ _ _ (by decide),
      assocGet_set_ne _ _ _ _ (by decide),
      strfStep_get_ne _ _ _ _ hu (by decide),
      strfStep_get_ne _ _ _ _ hc (by decide)]

theorem to_dict_created (cn : String) (sec : Bool) (attrs d : Attrs) (t : DateTime)
    (h : to_dict cn sec attrs = some d)
    (hg : assocGet attrs "created_at" = some (Val.vTime t)) :
    assocGet d "created_at" = some (Val.vStr (fmtTime t)) := by
  obtain ⟨d1, d2, hc, hu, hd⟩ := to_dict_eq cn sec attrs d h
  subst hd
  have h2 : assocGet d2 "created_at" = some (Val.vStr (fmtTime t)) := by
    rw [strfStep_get_ne _ _ _ _ hu (by decide)]
    exact strfStep_get_self _ _ _ _ hc hg
  cases sec with
  | true =>
    rw [if_pos rfl, assocGet_del_ne _ _ _ (by decide),
        assocGet_del_ne _ _ _ (by decide), assocGet_set_ne _ _ _ _ (by decide)]
    exact h2
  | false =>
    rw [if_neg Bool.false_ne_true, assocGet_del_ne _ _ _ (by decide),
        assocGet_set_ne _ _ _ _ (by decide)]
    exact h2

theorem to_dict_updated (cn : String) (sec : Bool) (attrs d : Attrs) (t : DateTime)
    (h : to_dict cn sec attrs = some d)
    (hg : assocGet attrs "updated_at" = some (Val.vTime t)) :
    assocGet d "updated_at" = some (Val.vStr (fmtTime t)) := by
  obtain ⟨d1, d2, hc, hu, hd⟩ := to_dict_eq cn sec attrs d h
  subst hd
  have h2 : assocGet d2 "updated_at" = some (Val.vStr (fmtTime t)) := by
    refine strfStep_get_self _ _ _ _ hu ?_
    rw [strfStep_get_ne _ _ _ _ hc (by decide)]
    exact hg
  cases sec with
  | true =>
    rw [if_pos rfl, assocGet_del_ne _ _ _ (by decide),
        assocGet_del_ne _ _ _ (by decide), assocGet_set_ne _ _ _ _ (by decide)]
    exact h2
  | false =>
    rw [if_neg Bool.false_ne_true, assocGet_del_ne _ _ _ (by decide),
        assocGet_set_ne _ _ _ _ (by decide)]
    exact h2

theorem to_dict_other (cn : String) (sec : Bool) (attrs d : Attrs) (k : String)
    (h : to_dict cn sec attrs = some d)
    (hk : k ∉ ["created_at", "updated_at", "__class__", "_sa_instance_state",
      "password"]) :
    assocGet d k = assocGet attrs k := by
  simp only [List.mem_cons, List.mem_singleton, not_or] at hk
  obtain ⟨hk1, hk2, hk3, hk4, hk5, -⟩ := hk
  obtain ⟨d1, d2, hc, hu, hd⟩ := to_dict_eq cn sec attrs d h
  subst hd
  have h2 : assocGet d2 k = assocGet attrs k := by
    rw [strfStep_get_ne _ _ _ _ hu hk2, strfStep_get_ne _ _ _ _ hc hk1]
  cases sec with
  | true =>
    rw [if_pos rfl, assocGet_del_ne _ _ _ hk5, assocGet_del_ne _ _ _ hk4,
        assocGet_set_ne _ _ _ _ hk3]
    exact h2
  | false =>
    rw [if_neg Bool.false_ne_true, assocGet_del_ne _ _ _ hk4,
        assocGet_set_ne _ _ _ _ hk3]
    exact h2

/-- C3: evaluation of the timestamp model at the failing input.  With the
process timezone one hour ahead of UTC (offset 3600000000 microseconds),
an entity constructed at UTC instant 0 (`datetime.now()` reads local time
3600000000) and saved one second later (`datetime.utcnow()` reads
1000000) ends with `updated_at` strictly below `created_at`, violating
the claimed invariant `updated_at ≥ created_at`. -/
theorem save_clock_skew_violates_invariant :
    (stampsSave ⟨1000000, 3600000000⟩ (stampsInit ⟨0, 3600000000⟩)).updated_at <
      (stampsSave ⟨1000000, 3600000000⟩ (stampsInit ⟨0, 3600000000⟩)).created_at := by
  decide

/-- C5: POST under `/states/<state_id>/cities` where the state id names no
resident State responds 404 with no entity created, for every request
body (missing, unparseable or lacking `name`) and every ambient read:
the State lookup precedes all body validation. -/
theorem post_city_nonexistent_state_404 (st : Storage) (state_id : String)
    (h : assocGet st.states state_id = none) (body : Option Attrs) (ctx : Ctx) :
    create_obj_city st state_id body ctx = (HResp.notFound, none) := by
  unfold create_obj_city
  rw [h]

/-- C5 witness: empty storage, a body that is not even parseable. -/
theorem post_city_nonexistent_state_404_witness :
    create_obj_city ⟨[], [], [], [], [], []⟩ "no-such-state" none
      ⟨"gid", ⟨2024, 1, 1, 0, 0, 0, 0⟩, ⟨2024, 1, 1, 0, 0, 0, 0⟩⟩ =
      (HResp.notFound, none) :=
  post_city_nonexistent_state_404 ⟨[], [], [], [], [], []⟩ "no-such-state" rfl none _

theorem serializeAll_mem (cn : String) (objs ds : List Attrs)
    (h : serializeAll cn objs = some ds) (d : Attrs) (hd : d ∈ ds) :
    ∃ o, o ∈ objs ∧ to_dict cn true o = some d := by
  induction objs generalizing ds with
  | nil =>
    unfold serializeAll at h
    injection h with h
    subst h
    simp at hd
  | cons o rest ih =>
    unfold serializeAll at h
    split at h
    · rename_i d0 ds0 h0 hrest
      injection h with h
      subst h
      rcases List.mem_cons.mp hd with heq | htail
      · exact ⟨o, List.mem_cons_self _ _, heq ▸ h0⟩
      · obtain ⟨o', ho', hser⟩ := ih ds0 hrest htail
        exact ⟨o', List.mem_cons_of_mem _ ho', hser⟩
    · exact absurd h (by simp)

/-- C4: password masking.  `to_dict` with `secure_pwd=True` (the default
every route handler uses) never yields a `password` key; with
`secure_pwd=False` it preserves the stored `password` entry; and every
route-layer response body — a 200 from a PUT handler, a 201 from the User
creator, an element of a collection GET — has no `password` key. -/
theorem password_never_serialized :
    (∀ cn attrs d, to_dict cn true attrs = some d →
      assocGet d "password" = none) ∧
    (∀ cn attrs d v, assocGet attrs "password" = some v →
      to_dict cn false attrs = some d → assocGet d "password" = some v) ∧
    (∀ k lookup body d, (putHandler k lookup body).1 = HResp.ok d →
      assocGet d "password" = none) ∧
    (∀ ctx body d e, create_obj_user ctx body = (HResp.created d, e) →
      assocGet d "password" = none) ∧
    (∀ cn objs ds, get_all cn objs = HResp.okList ds →
      ∀ d ∈ ds, assocGet d "password" = none) := by
  have part1 : ∀ cn attrs d, to_dict cn true attrs = some d →
      assocGet d "password" = none := fun cn attrs d h =>
    to_dict_password_masked cn attrs d h
  refine ⟨part1, ?_, ?_, ?_, ?_⟩
  · intro cn attrs d v hg h
    rw [to_dict_password_plain cn attrs d h, hg]
  · intro k lookup body d h
    simp only [putHandler] at h
    split at h
    · exact absurd h (by simp)
    · split at h
      · exact absurd h (by simp)
      · rename_i obj
        split at h
        · rename_i d0 hser
          simp at h
          exact h ▸ part1 _ _ _ hser
        · exact absurd h (by simp)
  · intro ctx body d e h
    simp only [create_obj_user] at h
    split at h
    · exact absurd h (by simp)
    · split at h
      · exact absurd h (by simp)
      · split at h
        · exact absurd h (by simp)
        · split at h
          · exact absurd h (by simp)
          · rename_i e0 hinit
            split at h
            · rename_i d0 hser
              have hd : d0 = d := by
                have := congrArg Prod.fst h
                simpa using this
              exact hd ▸ part1 _ _ _ hser
            · exact absurd h (by simp)
  · intro cn objs ds h d hd
    unfold get_all at h
    split at h
    · rename_i ds0 hser
      injection h with h
      subst h
      obtain ⟨o, _, hser2⟩ := serializeAll_mem cn objs _ hser d hd
      exact part1 _ _ _ hser2
    · exact absurd h (by simp)

/-- C4 witness: a concrete User with a password, serialized masked and
unmasked, and created through the User POST handler. -/
theorem password_never_serialized_witness :
    assocGet [("id", Val.vStr "u1"),
      ("created_at", Val.vStr "2024-01-02T03:04:05.000006"),
      ("updated_at", Val.vStr "2024-01-02T03:04:05.000006"),
      ("email", Val.vStr "a@b.c"), ("__class__", Val.vStr "User")]
      "password" = none ∧
    assocGet [("id", Val.vStr "u1"),
      ("created_at", Val.vStr "2024-01-02T03:04:05.000006"),
      ("updated_at", Val.vStr "2024-01-02T03:04:05.000006"),
      ("email", Val.vStr "a@b.c"), ("password", Val.vStr "secret"),
      ("__class__", Val.vStr "User")] "password" = some (Val.vStr "secret") ∧
    assocGet [("id", Val.vStr "g1"),
      ("created_at", Val.vStr "2024-01-02T03:04:05.000006"),
      ("updated_at", Val.vStr "2024-06-01T00:00:00.000000"),
      ("email", Val.vStr "a@b.c"), ("__class__", Val.vStr "User")]
      "password" = none := by
  refine ⟨?_, ?_, ?_⟩
  · exact password_never_serialized.1 "User"
      [("id", Val.vStr "u1"),
       ("created_at", Val.vTime ⟨2024, 1, 2, 3, 4, 5, 6⟩),
       ("updated_at", Val.vTime ⟨2024, 1, 2, 3, 4, 5, 6⟩),
       ("email", Val.vStr "a@b.c"), ("password", Val.vStr "secret")]
      _ (by decide)
  · exact password_never_serialized.2.1 "User"
      [("id", Val.vStr "u1"),
       ("created_at", Val.vTime ⟨2024, 1, 2, 3, 4, 5, 6⟩),
       ("updated_at", Val.vTime ⟨2024, 1, 2, 3, 4, 5, 6⟩),
       ("email", Val.vStr "a@b.c"), ("password", Val.vStr "secret")]
      _ _ (by decide) (by decide)
  · exact password_never_serialized.2.2.2.1
      ⟨"g1", ⟨2024, 1, 2, 3, 4, 5, 6⟩, ⟨2024, 6, 1, 0, 0, 0, 0⟩⟩
      (some [("email", Val.vStr "a@b.c"), ("password", Val.vStr "secret")])
      _
      (some [("id", Val.vStr "g1"),
        ("created_at", Val.vTime ⟨2024, 1, 2, 3, 4, 5, 6⟩),
        ("updated_at", Val.vTime ⟨2024, 6, 1, 0, 0, 0, 0⟩),
        ("email", Val.vStr "a@b.c"), ("password", Val.vStr "secret")])
      (by decide)

/-- C6: the Place–Amenity link handlers.  Starting from a resident Place
not linked to a resident Amenity: the first add returns 201 and appends
the link, the second add returns 200 and changes nothing, leaving exactly
one link; and removing the amenity while it is not linked returns 404 and
leaves the storage untouched (no engine error). -/
theorem amenity_link_idempotent (st : Storage) (pid aid : String)
    (pl : PlaceRec) (am d : Attrs)
    (hp : assocGet st.places pid = some pl)
    (ha : assocGet st.amenities aid = some am)
    (hnl : aid ∉ pl.amenity_ids)
    (hser : to_dict "Amenity" true am = some d) :
    ∃ st1 pl1,
      post_amenity2 st pid aid = (HResp.created d, st1) ∧
      assocGet st1.places pid = some pl1 ∧
      pl1.amenity_ids.count aid = 1 ∧
      post_amenity2 st1 pid aid = (HResp.ok d, st1) ∧
      delete_amenity st pid aid = (HResp.notFound, st) := by
  refine ⟨{ st with
      places := assocSet st.places pid ⟨pl.attrs, pl.amenity_ids ++ [aid]⟩ },
    ⟨pl.attrs, pl.amenity_ids ++ [aid]⟩, ?_, ?_, ?_, ?_, ?_⟩
  · simp only [post_amenity2, hp, ha, if_neg hnl, hser]
  · exact assocGet_set_self _ _ _
  · simp [List.count_append, List.count_eq_zero.mpr hnl]
  · have hm : aid ∈ pl.amenity_ids ++ [aid] := by simp
    simp only [post_amenity2, assocGet_set_self, ha, if_pos hm, hser]
  · simp only [delete_amenity, hp, ha, if_neg hnl]

/-- C6 witness: one place, one amenity, not linked. -/
theorem amenity_link_idempotent_witness :
    ∃ st1 pl1,
      post_amenity2
        ⟨[], [], [],
         [("a1", [("id", Val.vStr "a1"),
           ("created_at", Val.vTime ⟨2024, 1, 2, 3, 4, 5, 6⟩),
           ("updated_at", Val.vTime ⟨2024, 1, 2, 3, 4, 5, 6⟩),
           ("name", Val.vStr "wifi")])],
         [("p1", ⟨[("id", Val.vStr "p1")], []⟩)], []⟩ "p1" "a1" =
        (HResp.created [("id", Val.vStr "a1"),
          ("created_at", Val.vStr "2024-01-02T03:04:05.000006"),
          ("updated_at", Val.vStr "2024-01-02T03:04:05.000006"),
          ("name", Val.vStr "wifi"), ("__class__", Val.vStr "Amenity")], st1) ∧
      assocGet st1.places "p1" = some pl1 ∧
      pl1.amenity_ids.count "a1" = 1 ∧
      post_amenity2 st1 "p1" "a1" =
        (HResp.ok [("id", Val.vStr "a1"),
          ("created_at", Val.vStr "2024-01-02T03:04:05.000006"),
          ("updated_at", Val.vStr "2024-01-02T03:04:05.000006"),
          ("name", Val.vStr "wifi"), ("__class__", Val.vStr "Amenity")], st1) ∧
      delete_amenity
        ⟨[], [], [],
         [("a1", [("id", Val.vStr "a1"),
           ("created_at", Val.vTime ⟨2024, 1, 2, 3, 4, 5, 6⟩),
           ("updated_at", Val.vTime ⟨2024, 1, 2, 3, 4, 5, 6⟩),
           ("name", Val.vStr "wifi")])],
         [("p1", ⟨[("id", Val.vStr "p1")], []⟩)], []⟩ "p1" "a1" =
        (HResp.notFound,
         ⟨[], [], [],
          [("a1", [("id", Val.vStr "a1"),
            ("created_at", Val.vTime ⟨2024, 1, 2, 3, 4, 5, 6⟩),
            ("updated_at", Val.vTime ⟨2024, 1, 2, 3, 4, 5, 6⟩),
            ("name", Val.vStr "wifi")])],
          [("p1", ⟨[("id", Val.vStr "p1")], []⟩)], []⟩) :=
  amenity_link_idempotent _ "p1" "a1" ⟨[("id", Val.vStr "p1")], []⟩
    [("id", Val.vStr "a1"),
     ("created_at", Val.vTime ⟨2024, 1, 2, 3, 4, 5, 6⟩),
     ("updated_at", Val.vTime ⟨2024, 1, 2, 3, 4, 5, 6⟩),
     ("name", Val.vStr "wifi")] _
    (by decide) (by decide) (by decide) (by decide)

theorem assocGet_putApply (skip : List String) (body obj : Attrs) (key : String)
    (hnd : (keysOf body).Nodup) :
    assocGet (putApply skip body obj) key =
      if key ∈ skip then assocGet obj key
      else
        match assocGet body key with
        | some v => some v
        | none => assocGet obj key := by
  induction body generalizing obj with
  | nil =>
    unfold putApply
    rw [List.foldl_nil]
    split
    · rfl
    · rfl
  | cons kv rest ih =>
    simp only [keysOf_cons, List.nodup_cons] at hnd
    obtain ⟨hout, hnd2⟩ := hnd
    unfold putApply
    rw [List.foldl_cons]
    have ih' := ih (if kv.1 ∈ skip then obj else assocSet obj kv.1 kv.2) hnd2
    unfold putApply at ih'
    rw [ih']
    by_cases hs : key ∈ skip
    · rw [if_pos hs, if_pos hs]
      by_cases hk : kv.1 ∈ skip
      · rw [if_pos hk]
      · rw [if_neg hk]
        exact assocGet_set_ne _ _ _ _ (fun hh => hk (hh ▸ hs))
    · rw [if_neg hs, if_neg hs]
      by_cases hkey : kv.1 = key
      · have hrest : assocGet rest key = none :=
          assocGet_eq_none_of_not_mem _ _ (hkey ▸ hout)
        rw [hrest]
        simp only [assocGet, if_pos hkey]
        rw [if_neg (fun hh : kv.1 ∈ skip => hs (hkey ▸ hh)), hkey]
        exact assocGet_set_self _ _ _
      · simp only [assocGet, if_neg hkey]
        cases hg : assocGet rest key with
        | some v => rfl
        | none =>
          by_cases hk : kv.1 ∈ skip
          · rw [if_pos hk]
          · rw [if_neg hk]
            exact assocGet_set_ne _ _ _ _ (fun hh => hkey hh.symm)

/-- C1 counterexample: a PUT on a resident Place whose body supplies
`updated_at` does not keep the pre-request `updated_at`: the skip list of
`post_place` misspells it as `'updated'`, so the string value is written
onto the entity and saved, and the response is not a 200 either — the
subsequent `to_dict` call raises on the string timestamp. -/
theorem put_place_overwrites_updated_at :
    putHandler EKind.kPlace
      (some [("id", Val.vStr "p1"),
        ("created_at", Val.vTime ⟨2024, 1, 2, 3, 4, 5, 6⟩),
        ("updated_at", Val.vTime ⟨2024, 1, 2, 3, 4, 5, 6⟩),
        ("name", Val.vStr "home")])
      (some [("updated_at", Val.vStr "1999-01-01T00:00:00.000000")]) =
      (HResp.serverError,
       some [("id", Val.vStr "p1"),
        ("created_at", Val.vTime ⟨2024, 1, 2, 3, 4, 5, 6⟩),
        ("updated_at", Val.vStr "1999-01-01T00:00:00.000000"),
        ("name", Val.vStr "home")]) := by
  decide

/-- C1 amended: each PUT handler keeps exactly the fields of its own skip
list and applies every other body key before saving; the skip lists are
`id/created_at/updated_at` for State and Amenity, plus `state_id` for
City, plus `email` for User, while Place and Review skip their foreign
keys but list the misspelled `'updated'` instead of `'updated_at'`, so a
body `updated_at` is applied for those two kinds.  The response is the
200 serialization whenever the updated entity still serializes (in
particular whenever no timestamp field was overwritten with a string). -/
theorem put_immutable_fields (k : EKind) (obj body : Attrs)
    (hnb : body ≠ [])
    (hnd : (keysOf body).Nodup) :
    ∃ obj2, (putHandler k (some obj) (some body)).2 = some obj2 ∧
      (∀ key, key ∈ putSkip k → assocGet obj2 key = assocGet obj key) ∧
      (∀ key, key ∉ putSkip k → ∀ v, assocGet body key = some v →
        assocGet obj2 key = some v) ∧
      (∀ key, key ∉ putSkip k → assocGet body key = none →
        assocGet obj2 key = assocGet obj key) ∧
      (∀ d, to_dict (className k) true obj2 = some d →
        (putHandler k (some obj) (some body)).1 = HResp.ok d) := by
  have hfalsy : jsonFalsy (some body) = false := by
    unfold jsonFalsy
    cases body with
    | nil => exact absurd rfl hnb
    | cons p rest => rfl
  refine ⟨putApply (putSkip k) body obj, ?_, ?_, ?_, ?_, ?_⟩
  · simp only [putHandler, hfalsy, Bool.false_eq_true, if_false, Option.getD_some]
    split
    · rfl
    · rfl
  · intro key hk
    rw [assocGet_putApply _ _ _ _ hnd, if_pos hk]
  · intro key hk v hv
    rw [assocGet_putApply _ _ _ _ hnd, if_neg hk, hv]
  · intro key hk hv
    rw [assocGet_putApply _ _ _ _ hnd, if_neg hk, hv]
  · intro d hd
    simp only [putHandler, hfalsy, Bool.false_eq_true, if_false, Option.getD_some, hd]

/-- C1 witness: a State PUT whose body tries to overwrite `id` and also
sets `name`. -/
theorem put_immutable_fields_witness :
    ∃ obj2,
      (putHandler EKind.kState
        (some [("id", Val.vStr "s1"),
          ("created_at", Val.vTime ⟨2024, 1, 2, 3, 4, 5, 6⟩),
          ("updated_at", Val.vTime ⟨2024, 1, 2, 3, 4, 5, 6⟩),
          ("name", Val.vStr "old")])
        (some [("name", Val.vStr "new"), ("id", Val.vStr "evil")])).2 =
        some obj2 ∧
      (∀ key, key ∈ putSkip EKind.kState →
        assocGet obj2 key =
          assocGet [("id", Val.vStr "s1"),
            ("created_at", Val.vTime ⟨2024, 1, 2, 3, 4, 5, 6⟩),
            ("updated_at", Val.vTime ⟨2024, 1, 2, 3, 4, 5, 6⟩),
            ("name", Val.vStr "old")] key) ∧
      (∀ key, key ∉ putSkip EKind.kState → ∀ v,
        assocGet [("name", Val.vStr "new"), ("id", Val.vStr "evil")] key = some v →
        assocGet obj2 key = some v) ∧
      (∀ key, key ∉ putSkip EKind.kState →
        assocGet [("name", Val.vStr "new"), ("id", Val.vStr "evil")] key = none →
        assocGet obj2 key =
          assocGet [("id", Val.vStr "s1"),
            ("created_at", Val.vTime ⟨2024, 1, 2, 3, 4, 5, 6⟩),
            ("updated_at", Val.vTime ⟨2024, 1, 2, 3, 4, 5, 6⟩),
            ("name", Val.vStr "old")] key) ∧
      (∀ d, to_dict (className EKind.kState) true obj2 = some d →
        (putHandler EKind.kState
          (some [("id", Val.vStr "s1"),
            ("created_at", Val.vTime ⟨2024, 1, 2, 3, 4, 5, 6⟩),
            ("updated_at", Val.vTime ⟨2024, 1, 2, 3, 4, 5, 6⟩),
            ("name", Val.vStr "old")])
          (some [("name", Val.vStr "new"), ("id", Val.vStr "evil")])).1 =
          HResp.ok d) :=
  put_immutable_fields EKind.kState
    [("id", Val.vStr "s1"),
     ("created_at", Val.vTime ⟨2024, 1, 2, 3, 4, 5, 6⟩),
     ("updated_at", Val.vTime ⟨2024, 1, 2, 3, 4, 5, 6⟩),
     ("name", Val.vStr "old")]
    [("name", Val.vStr "new"), ("id", Val.vStr "evil")]
    (by decide) (by decide)

/-- C2 counterexample: an empty JSON object parses (it is not `None`),
yet the State POST handler answers 400 "Not a JSON", because the source
tests `if not request.get_json()`, which is also true for a parseable
falsy body. -/
theorem post_state_empty_object_not_a_json :
    create_obj ⟨"g1", ⟨2024, 1, 1, 0, 0, 0, 0⟩, ⟨2024, 1, 1, 0, 0, 0, 0⟩⟩
        (some []) = (HResp.badRequest "Not a JSON", none) ∧
      (some ([] : Attrs)) ≠ (none : Option Attrs) := by
  decide

/-- C2 amended: the flat creation handlers (State, Amenity, User) return
400 "Not a JSON" exactly when the parsed body is falsy — absent because
unparseable, or parseable but empty; when the body is a non-empty object
missing a required field they return 400 "Missing name" (State, Amenity),
"Missing email" or "Missing password" (User, in that order); otherwise
they construct the entity (which fails only on a malformed timestamp
override in the body), save it, and return its serialization with 201. -/
theorem post_validation (ctx : Ctx) (body : Option Attrs) :
    ((create_obj ctx body).1 = HResp.badRequest "Not a JSON" ↔
      jsonFalsy body = true) ∧
    ((create_obj_amenity ctx body).1 = HResp.badRequest "Not a JSON" ↔
      jsonFalsy body = true) ∧
    ((create_obj_user ctx body).1 = HResp.badRequest "Not a JSON" ↔
      jsonFalsy body = true) ∧
    (jsonFalsy body = false → hasKey (body.getD []) "name" = false →
      (create_obj ctx body).1 = HResp.badRequest "Missing name" ∧
      (create_obj_amenity ctx body).1 = HResp.badRequest "Missing name") ∧
    (jsonFalsy body = false → hasKey (body.getD []) "email" = false →
      (create_obj_user ctx body).1 = HResp.badRequest "Missing email") ∧
    (jsonFalsy body = false → hasKey (body.getD []) "email" = true →
      hasKey (body.getD []) "password" = false →
      (create_obj_user ctx body).1 = HResp.badRequest "Missing password") ∧
    (∀ e d, jsonFalsy body = false → hasKey (body.getD []) "name" = true →
      baseInit ctx.genId ctx.now (body.getD []) = some e →
      to_dict "State" true (modelSave ctx.utcNow e) = some d →
      create_obj ctx body = (HResp.created d, some (modelSave ctx.utcNow e))) ∧
    (∀ e d, jsonFalsy body = false → hasKey (body.getD []) "name" = true →
      baseInit ctx.genId ctx.now (body.getD []) = some e →
      to_dict "Amenity" true (modelSave ctx.utcNow e) = some d →
      create_obj_amenity ctx body =
        (HResp.created d, some (modelSave ctx.utcNow e))) ∧
    (∀ e d, jsonFalsy body = false → hasKey (body.getD []) "email" = true →
      hasKey (body.getD []) "password" = true →
      baseInit ctx.genId ctx.now (body.getD []) = some e →
      to_dict "User" true (modelSave ctx.utcNow e) = some d →
      create_obj_user ctx body =
        (HResp.created d, some (modelSave ctx.utcNow e))) := by
  by_cases hf : jsonFalsy body = true
  · refine ⟨?_, ?_, ?_, ?_, ?_, ?_, ?_, ?_, ?_⟩
    · simp [create_obj, hf]
    · simp [create_obj_amenity, hf]
    · simp [create_obj_user, hf]
    · intro h; rw [h] at hf; exact absurd hf (by decide)
    · intro h; rw [h] at hf; exact absurd hf (by decide)
    · intro h; rw [h] at hf; exact absurd hf (by decide)
    · intro e d h; rw [h] at hf; exact absurd hf (by decide)
    · intro e d h; rw [h] at hf; exact absurd hf (by decide)
    · intro e d h; rw [h] at hf; exact absurd hf (by decide)
  · rw [Bool.not_eq_true] at hf
    refine ⟨?_, ?_, ?_, ?_, ?_, ?_, ?_, ?_, ?_⟩
    · rw [hf]
      simp only [Bool.false_eq_true, iff_false]
      intro h
      simp only [create_obj, hf, Bool.false_eq_true, if_false] at h
      split at h
      · exact absurd (HResp.badRequest.inj h) (by decide)
      · split at h
        · exact HResp.noConfusion h
        · split at h
          · exact HResp.noConfusion h
          · exact HResp.noConfusion h
    · rw [hf]
      simp only [Bool.false_eq_true, iff_false]
      intro h
      simp only [create_obj_amenity, hf, Bool.false_eq_true, if_false] at h
      split at h
      · exact absurd (HResp.badRequest.inj h) (by decide)
      · split at h
        · exact HResp.noConfusion h
        · split at h
          · exact HResp.noConfusion h
          · exact HResp.noConfusion h
    · rw [hf]
      simp only [Bool.false_eq_true, iff_false]
      intro h
      simp only [create_obj_user, hf, Bool.false_eq_true, if_false] at h
      split at h
      · exact absurd (HResp.badRequest.inj h) (by decide)
      · split at h
        · exact absurd (HResp.badRequest.inj h) (by decide)
        · split at h
          · exact HResp.noConfusion h
          · split at h
            · exact HResp.noConfusion h
            · exact HResp.noConfusion h
    · intro _ hname
      constructor
      · simp [create_obj, hf, hname]
      · simp [create_obj_amenity, hf, hname]
    · intro _ hmail
      simp [create_obj_user, hf, hmail]
    · intro _ hmail hpwd
      simp [create_obj_user, hf, hmail, hpwd]
    · intro e d _ hname hinit hser
      simp [create_obj, hf, hname, hinit, hser]
    · intro e d _ hname hinit hser
      simp [create_obj_amenity, hf, hname, hinit, hser]
    · intro e d _ hmail hpwd hinit hser
      simp [create_obj_user, hf, hmail, hpwd, hinit, hser]

/-- C2 witness: a full fresh POST of a State named California. -/
theorem post_validation_witness :
    create_obj ⟨"g1", ⟨2024, 1, 2, 3, 4, 5, 6⟩, ⟨2024, 6, 1, 0, 0, 0, 0⟩⟩
        (some [("name", Val.vStr "California")]) =
      (HResp.created
        [("id", Val.vStr "g1"),
         ("created_at", Val.vStr "2024-01-02T03:04:05.000006"),
         ("updated_at", Val.vStr "2024-06-01T00:00:00.000000"),
         ("name", Val.vStr "California"), ("__class__", Val.vStr "State")],
       some [("id", Val.vStr "g1"),
         ("created_at", Val.vTime ⟨2024, 1, 2, 3, 4, 5, 6⟩),
         ("updated_at", Val.vTime ⟨2024, 6, 1, 0, 0, 0, 0⟩),
         ("name", Val.vStr "California")]) :=
  (post_validation ⟨"g1", ⟨2024, 1, 2, 3, 4, 5, 6⟩, ⟨2024, 6, 1, 0, 0, 0, 0⟩⟩
      (some [("name", Val.vStr "California")])).2.2.2.2.2.2.1
    [("id", Val.vStr "g1"),
     ("created_at", Val.vTime ⟨2024, 1, 2, 3, 4, 5, 6⟩),
     ("updated_at", Val.vTime ⟨2024, 1, 2, 3, 4, 5, 6⟩),
     ("name", Val.vStr "California")]
    [("id", Val.vStr "g1"),
     ("created_at", Val.vStr "2024-01-02T03:04:05.000006"),
     ("updated_at", Val.vStr "2024-06-01T00:00:00.000000"),
     ("name", Val.vStr "California"), ("__class__", Val.vStr "State")]
    (by decide) (by decide) (by decide) (by decide)


theorem assocSet_assocSet_self {α : Type} (l : List (String × α)) (k : String)
    (v w : α) : assocSet (assocSet l k v) k w = assocSet l k w := by
  induction l with
  | nil => simp [assocSet]
  | cons p rest ih =>
    by_cases h : p.1 = k
    · simp [assocSet, h]
    · simp [assocSet, h, ih]

theorem fixTime_of_nostr (m : Attrs) (k : String)
    (h : ∀ s, assocGet m k ≠ some (Val.vStr s)) : fixTime m k = some m := by
  unfold fixTime
  cases hg : assocGet m k with
  | none => rfl
  | some v =>
    cases v with
    | vStr s => exact absurd hg (h s)
    | vTime t => rfl
    | vInt n => rfl
    | vBool b => rfl
    | vList l => rfl

theorem assocGet_isSome_of_mem {α : Type} (l : List (String × α)) (k : String)
    (h : k ∈ keysOf l) : ∃ v, assocGet l k = some v := by
  induction l with
  | nil => simp at h
  | cons p rest ih =>
    by_cases hp : p.1 = k
    · exact ⟨p.2, by simp [assocGet, hp]⟩
    · simp only [keysOf_cons, List.mem_cons] at h
      rcases h with h | h
      · exact absurd h.symm hp
      · obtain ⟨v, hv⟩ := ih h
        exact ⟨v, by simp [assocGet, hp, hv]⟩

theorem keysOf_assocDel_sublist {α : Type} (l : List (String × α)) (k : String) :
    (keysOf (assocDel l k)).Sublist (keysOf l) := by
  induction l with
  | nil => simp [assocDel]
  | cons p rest ih =>
    by_cases hp : p.1 = k
    · simp only [assocDel, if_pos hp, keysOf_cons]
      exact ih.trans (List.Sublist.cons _ (List.Sublist.refl _))
    · simp only [assocDel, if_neg hp, keysOf_cons]
      exact ih.cons₂ _

theorem nodup_keys_assocDel {α : Type} (l : List (String × α)) (k : String)
    (hnd : (keysOf l).Nodup) : (keysOf (assocDel l k)).Nodup :=
  List.Nodup.sublist (keysOf_assocDel_sublist l k) hnd

theorem mem_assocSet {α : Type} (l : List (String × α)) (k : String) (v : α)
    (kv : String × α) (h : kv ∈ assocSet l k v) : kv = (k, v) ∨ kv ∈ l := by
  induction l with
  | nil => simpa [assocSet] using h
  | cons p rest ih =>
    by_cases hp : p.1 = k
    · simp only [assocSet, if_pos hp, List.mem_cons] at h
      rcases h with h | h
      · exact Or.inl h
      · exact Or.inr (List.mem_cons_of_mem _ h)
    · simp only [assocSet, if_neg hp, List.mem_cons] at h
      rcases h with h | h
      · exact Or.inr (h ▸ List.mem_cons_self _ _)
      · rcases ih h with h2 | h2
        · exact Or.inl h2
        · exact Or.inr (List.mem_cons_of_mem _ h2)

theorem initStep_eq (m : Attrs) (kv : String × Val)
    (hns : NoStrTimes m) (hcl : kv.1 ≠ "__class__") (htr : TrOK kv) :
    initStep m kv = some (assocSet m kv.1 (trV kv.1 kv.2)) ∧
      NoStrTimes (assocSet m kv.1 (trV kv.1 kv.2)) := by
  obtain ⟨k0, v0⟩ := kv
  dsimp only at hcl htr ⊢
  obtain ⟨hns1, hns2⟩ := hns
  by_cases hc : k0 = "created_at"
  · subst hc
    obtain ⟨s, t, hv, hpt⟩ := htr (Or.inl rfl)
    subst hv
    have htrv : trV "created_at" (Val.vStr s) = Val.vTime t := by
      simp [trV, hpt]
    rw [htrv]
    refine ⟨?_, fun s' => ?_, fun s' => ?_⟩
    · simp only [initStep]
      rw [if_neg (by decide : ¬("created_at" = "__class__"))]
      have h1 : fixTime (assocSet m "created_at" (Val.vStr s)) "created_at" =
          some (assocSet m "created_at" (Val.vTime t)) := by
        simp only [fixTime, assocGet_set_self, hpt, assocSet_assocSet_self]
      rw [h1]
      exact fixTime_of_nostr _ _ (fun s' => by
        rw [assocGet_set_ne _ _ _ _ (by decide)]
        exact hns2 s')
    · rw [assocGet_set_self]
      simp
    · rw [assocGet_set_ne _ _ _ _ (by decide)]
      exact hns2 s'
  · by_cases hu : k0 = "updated_at"
    · subst hu
      obtain ⟨s, t, hv, hpt⟩ := htr (Or.inr rfl)
      subst hv
      have htrv : trV "updated_at" (Val.vStr s) = Val.vTime t := by
        simp [trV, hpt]
      rw [htrv]
      refine ⟨?_, fun s' => ?_, fun s' => ?_⟩
      · simp only [initStep]
        rw [if_neg (by decide : ¬("updated_at" = "__class__"))]
        have h1 : fixTime (assocSet m "updated_at" (Val.vStr s)) "created_at" =
            some (assocSet m "updated_at" (Val.vStr s)) :=
          fixTime_of_nostr _ _ (fun s' => by
            rw [assocGet_set_ne _ _ _ _ (by decide)]
            exact hns1 s')
        rw [h1]
        show fixTime (assocSet m "updated_at" (Val.vStr s)) "updated_at" = _
        simp only [fixTime, assocGet_set_self, hpt, assocSet_assocSet_self]
      · rw [assocGet_set_ne _ _ _ _ (by decide)]
        exact hns1 s'
      · rw [assocGet_set_self]
        simp
    · have htrv : trV k0 v0 = v0 := by
        cases v0 <;> simp [trV, hc, hu]
      rw [htrv]
      refine ⟨?_, fun s' => ?_, fun s' => ?_⟩
      · simp only [initStep]
        rw [if_neg hcl]
        have h1 : fixTime (assocSet m k0 v0) "created_at" =
            some (assocSet m k0 v0) :=
          fixTime_of_nostr _ _ (fun s' => by
            rw [assocGet_set_ne _ _ _ _ (fun hh => hc hh.symm)]
            exact hns1 s')
        rw [h1]
        exact fixTime_of_nostr _ _ (fun s' => by
          rw [assocGet_set_ne _ _ _ _ (fun hh => hu hh.symm)]
          exact hns2 s')
      · rw [assocGet_set_ne _ _ _ _ (fun hh => hc hh.symm)]
        exact hns1 s'
      · rw [assocGet_set_ne _ _ _ _ (fun hh => hu hh.symm)]
        exact hns2 s'

theorem baseInit_foldl (l : List (String × Val)) (m : Attrs)
    (hns : NoStrTimes m)
    (hl : ∀ kv ∈ l, kv.1 ≠ "__class__" ∧ TrOK kv)
    (hnd : (keysOf l).Nodup) :
    ∃ e, l.foldlM initStep m = some e ∧
      ∀ key, assocGet e key =
        match assocGet l key with
        | some v => some (trV key v)
        | none => assocGet m key := by
  induction l generalizing m with
  | nil =>
    refine ⟨m, rfl, fun key => rfl⟩
  | cons kv rest ih =>
    obtain ⟨hcl, htr⟩ := hl kv (List.mem_cons_self _ _)
    simp only [keysOf_cons, List.nodup_cons] at hnd
    obtain ⟨hout, hnd2⟩ := hnd
    obtain ⟨hstep, hns2⟩ := initStep_eq m kv hns hcl htr
    obtain ⟨e, he, hkey⟩ := ih (assocSet m kv.1 (trV kv.1 kv.2)) hns2
      (fun x hx => hl x (List.mem_cons_of_mem _ hx)) hnd2
    refine ⟨e, ?_, ?_⟩
    · rw [List.foldlM_cons, hstep]
      simpa using he
    · intro key
      rw [hkey key]
      by_cases hk : kv.1 = key
      · have hrest : assocGet rest key = none :=
          assocGet_eq_none_of_not_mem _ _ (hk ▸ hout)
        rw [hrest]
        have hfst : assocGet (kv :: rest) key = some kv.2 := by
          cases kv with
          | mk a b =>
            dsimp only at hk
            simp [assocGet, hk]
        rw [hfst, ← hk]
        exact assocGet_set_self _ _ _
      · have hcons : assocGet (kv :: rest) key = assocGet rest key := by
          cases kv with
          | mk a b =>
            dsimp only at hk
            simp [assocGet, hk]
        rw [hcons]
        cases hg : assocGet rest key with
        | some v => rfl
        | none => exact assocGet_set_ne _ _ _ _ (fun hh => hk hh.symm)

theorem baseInit_spec (genId : String) (now : DateTime) (kwargs : Attrs)
    (hl : ∀ kv ∈ kwargs, kv.1 ≠ "__class__" ∧ TrOK kv)
    (hnd : (keysOf kwargs).Nodup) :
    ∃ e, baseInit genId now kwargs = some e ∧
      ∀ key, assocGet e key =
        match assocGet kwargs key with
        | some v => some (trV key v)
        | none =>
          assocGet [("id", Val.vStr genId), ("created_at", Val.vTime now),
            ("updated_at", Val.vTime now)] key := by
  refine baseInit_foldl kwargs _ ⟨?_, ?_⟩ hl hnd
  · intro s h
    simp [assocGet] at h
  · intro s h
    simp [assocGet] at h

/-- C7: round trip.  For every entity instance (any class name cn) with
well-formed timestamps, unique attribute names and no ORM bookkeeping
entry, serializing with `to_dict(secure_pwd=False)`, removing the
`__class__` discriminator and reconstructing through
`BaseModel.__init__(**d)` yields an instance whose attributes — id,
both timestamps to microsecond precision, and every domain field — agree
with the original, whatever fresh id and clock read the reconstruction
draws. -/
theorem round_trip_attrs (cn : String) (attrs : Attrs) (genId : String)
    (now : DateTime)
    (hnd : (keysOf attrs).Nodup)
    (v0 : Val) (hid : assocGet attrs "id" = some v0)
    (t1 t2 : DateTime)
    (hca : assocGet attrs "created_at" = some (Val.vTime t1)) (hv1 : t1.Valid)
    (hua : assocGet attrs "updated_at" = some (Val.vTime t2)) (hv2 : t2.Valid)
    (hsa : assocGet attrs "_sa_instance_state" = none)
    (hcl : assocGet attrs "__class__" = none) :
    ∃ d e, to_dict cn false attrs = some d ∧
      baseInit genId now (assocDel d "__class__") = some e ∧
      ∀ key, assocGet e key = assocGet attrs key := by
  have hs1 : strfStep attrs "created_at" =
      some (assocSet attrs "created_at" (Val.vStr (fmtTime t1))) := by
    unfold strfStep
    rw [hca]
  have hs2 : strfStep (assocSet attrs "created_at" (Val.vStr (fmtTime t1)))
      "updated_at" =
      some (assocSet (assocSet attrs "created_at" (Val.vStr (fmtTime t1)))
        "updated_at" (Val.vStr (fmtTime t2))) := by
    unfold strfStep
    rw [assocGet_set_ne _ _ _ _ (by decide), hua]
  have hdict : to_dict cn false attrs =
      some (assocDel (assocSet (assocSet (assocSet attrs "created_at"
        (Val.vStr (fmtTime t1))) "updated_at" (Val.vStr (fmtTime t2)))
        "__class__" (Val.vStr cn)) "_sa_instance_state") := by
    simp only [to_dict, hs1, hs2, Bool.false_eq_true, if_false]
  have hd' : ∀ key, key ≠ "__class__" →
      assocGet (assocDel (assocDel (assocSet (assocSet (assocSet attrs
        "created_at" (Val.vStr (fmtTime t1))) "updated_at"
        (Val.vStr (fmtTime t2))) "__class__" (Val.vStr cn))
        "_sa_instance_state") "__class__") key =
      (if key = "created_at" then some (Val.vStr (fmtTime t1))
       else if key = "updated_at" then some (Val.vStr (fmtTime t2))
       else assocGet attrs key) := by
    intro key hk
    rw [assocGet_del_ne _ _ _ hk]
    by_cases hksa : key = "_sa_instance_state"
    · subst hksa
      rw [assocGet_del_self, if_neg (by decide), if_neg (by decide), hsa]
    · rw [assocGet_del_ne _ _ _ hksa, assocGet_set_ne _ _ _ _ hk]
      by_cases hku : key = "updated_at"
      · subst hku
        rw [assocGet_set_self, if_neg (by decide), if_pos rfl]
      · rw [assocGet_set_ne _ _ _ _ hku]
        by_cases hkc : key = "created_at"
        · subst hkc
          rw [assocGet_set_self, if_pos rfl]
        · rw [assocGet_set_ne _ _ _ _ hkc, if_neg hkc, if_neg hku]
  have hndd : (keysOf (assocDel (assocDel (assocSet (assocSet (assocSet attrs
      "created_at" (Val.vStr (fmtTime t1))) "updated_at"
      (Val.vStr (fmtTime t2))) "__class__" (Val.vStr cn))
      "_sa_instance_state") "__class__")).Nodup :=
    nodup_keys_assocDel _ _ (nodup_keys_assocDel _ _ (nodup_keys_assocSet _ _ _
      (nodup_keys_assocSet _ _ _ (nodup_keys_assocSet _ _ _ hnd))))
  have hent : ∀ kv ∈ assocDel (assocDel (assocSet (assocSet (assocSet attrs
      "created_at" (Val.vStr (fmtTime t1))) "updated_at"
      (Val.vStr (fmtTime t2))) "__class__" (Val.vStr cn))
      "_sa_instance_state") "__class__", kv.1 ≠ "__class__" ∧ TrOK kv := by
    intro kv hkv
    have hk1 : kv.1 ≠ "__class__" := by
      intro hh
      have hmem : kv.1 ∈ keysOf (assocDel (assocDel (assocSet (assocSet
          (assocSet attrs "created_at" (Val.vStr (fmtTime t1))) "updated_at"
          (Val.vStr (fmtTime t2))) "__class__" (Val.vStr cn))
          "_sa_instance_state") "__class__") :=
        List.mem_map.mpr ⟨kv, hkv, rfl⟩
      rw [hh] at hmem
      obtain ⟨v, hv⟩ := assocGet_isSome_of_mem _ _ hmem
      rw [assocGet_del_self] at hv
      exact Option.noConfusion hv
    refine ⟨hk1, ?_⟩
    intro hor
    have hget := assocGet_of_mem_nodup _ _ _ hndd hkv
    rw [hd' kv.1 hk1] at hget
    rcases hor with hc | hu
    · rw [hc, if_pos rfl] at hget
      exact ⟨fmtTime t1, t1, (Option.some.inj hget).symm,
        parseTime_fmtTime t1 hv1⟩
    · rw [hu, if_neg (by decide), if_pos rfl] at hget
      exact ⟨fmtTime t2, t2, (Option.some.inj hget).symm,
        parseTime_fmtTime t2 hv2⟩
  obtain ⟨e, he, hkey⟩ := baseInit_spec genId now _ hent hndd
  refine ⟨_, e, hdict, he, ?_⟩
  intro key
  rw [hkey key]
  by_cases hkc : key = "__class__"
  · subst hkc
    rw [assocGet_del_self]
    simp [assocGet, hcl]
  · rw [hd' key hkc]
    by_cases hc : key = "created_at"
    · subst hc
      rw [if_pos rfl]
      simp [trV, parseTime_fmtTime t1 hv1, hca]
    · by_cases hu : key = "updated_at"
      · subst hu
        rw [if_neg (by decide), if_pos rfl]
        simp [trV, parseTime_fmtTime t2 hv2, hua]
      · rw [if_neg hc, if_neg hu]
        cases hg : assocGet attrs key with
        | some v =>
          have htrv : trV key v = v := by
            cases v <;> simp [trV, hc, hu]
          simp [htrv]
        | none =>
          have hki : key ≠ "id" := by
            intro hh
            rw [hh, hid] at hg
            exact Option.noConfusion hg
          simp [assocGet, Ne.symm hki, Ne.symm hc, Ne.symm hu]

/-- C7 witness: a concrete State instance round-tripped through
serialization and reconstruction. -/
theorem round_trip_attrs_witness :
    ∃ d e, to_dict "State" false
        [("id", Val.vStr "s1"),
         ("created_at", Val.vTime ⟨2024, 1, 2, 3, 4, 5, 6⟩),
         ("updated_at", Val.vTime ⟨2024, 5, 6, 7, 8, 9, 10⟩),
         ("name", Val.vStr "CA")] = some d ∧
      baseInit "fresh-id" ⟨2026, 1, 1, 0, 0, 0, 0⟩ (assocDel d "__class__") =
        some e ∧
      ∀ key, assocGet e key =
        assocGet [("id", Val.vStr "s1"),
          ("created_at", Val.vTime ⟨2024, 1, 2, 3, 4, 5, 6⟩),
          ("updated_at", Val.vTime ⟨2024, 5, 6, 7, 8, 9, 10⟩),
          ("name", Val.vStr "CA")] key :=
  round_trip_attrs "State"
    [("id", Val.vStr "s1"),
     ("created_at", Val.vTime ⟨2024, 1, 2, 3, 4, 5, 6⟩),
     ("updated_at", Val.vTime ⟨2024, 5, 6, 7, 8, 9, 10⟩),
     ("name", Val.vStr "CA")]
    "fresh-id" ⟨2026, 1, 1, 0, 0, 0, 0⟩ (by decide) (Val.vStr "s1") (by decide)
    ⟨2024, 1, 2, 3, 4, 5, 6⟩ ⟨2024, 5, 6, 7, 8, 9, 10⟩ (by decide) (by decide)
    (by decide) (by decide) (by decide) (by decide)

/-- C8 counterexample: `password` is a public attribute of a User
instance, yet the default serialization (`secure_pwd=True`, used by every
route handler) omits it, so `to_dict` does not always contain every
public attribute. -/
theorem to_dict_masks_a_public_attribute :
    to_dict "User" true
      [("id", Val.vStr "u1"),
       ("created_at", Val.vTime ⟨2024, 1, 2, 3, 4, 5, 6⟩),
       ("updated_at", Val.vTime ⟨2024, 1, 2, 3, 4, 5, 6⟩),
       ("email", Val.vStr "a@b.c"), ("password", Val.vStr "secret")] =
      some [("id", Val.vStr "u1"),
       ("created_at", Val.vStr "2024-01-02T03:04:05.000006"),
       ("updated_at", Val.vStr "2024-01-02T03:04:05.000006"),
       ("email", Val.vStr "a@b.c"), ("__class__", Val.vStr "User")] ∧
    assocGet [("id", Val.vStr "u1"),
       ("created_at", Val.vTime ⟨2024, 1, 2, 3, 4, 5, 6⟩),
       ("updated_at", Val.vTime ⟨2024, 1, 2, 3, 4, 5, 6⟩),
       ("email", Val.vStr "a@b.c"), ("password", Val.vStr "secret")]
      "password" = some (Val.vStr "secret") ∧
    assocGet [("id", Val.vStr "u1"),
       ("created_at", Val.vStr "2024-01-02T03:04:05.000006"),
       ("updated_at", Val.vStr "2024-01-02T03:04:05.000006"),
       ("email", Val.vStr "a@b.c"), ("__class__", Val.vStr "User")]
      "password" = none := by
  decide

/-- C8 amended: whenever `to_dict` succeeds it yields a string-keyed
mapping with the `__class__` discriminator set to the class name, no
`_sa_instance_state` entry, `created_at` and `updated_at` rendered
through the fixed format `%Y-%m-%dT%H:%M:%S.%f`, every other attribute
preserved verbatim — except `password`, which is present exactly when
masking is off. -/
theorem to_dict_shape (cn : String) (sec : Bool) (attrs d : Attrs)
    (h : to_dict cn sec attrs = some d) :
    assocGet d "__class__" = some (Val.vStr cn) ∧
    assocGet d "_sa_instance_state" = none ∧
    (∀ t, assocGet attrs "created_at" = some (Val.vTime t) →
      assocGet d "created_at" = some (Val.vStr (fmtTime t))) ∧
    (∀ t, assocGet attrs "updated_at" = some (Val.vTime t) →
      assocGet d "updated_at" = some (Val.vStr (fmtTime t))) ∧
    (∀ k, k ∉ ["created_at", "updated_at", "__class__", "_sa_instance_state",
      "password"] → assocGet d k = assocGet attrs k) ∧
    assocGet d "password" =
      (if sec then none else assocGet attrs "password") := by
  refine ⟨to_dict_class cn sec attrs d h, to_dict_sa cn sec attrs d h,
    fun t ht => to_dict_created cn sec attrs d t h ht,
    fun t ht => to_dict_updated cn sec attrs d t h ht,
    fun k hk => to_dict_other cn sec attrs d k h hk, ?_⟩
  cases sec with
  | true =>
    rw [if_pos rfl]
    exact to_dict_password_masked cn attrs d h
  | false =>
    rw [if_neg Bool.false_ne_true]
    exact to_dict_password_plain cn attrs d h

/-- C8 witness: shape facts at a concrete masked User serialization. -/
theorem to_dict_shape_witness :
    assocGet [("id", Val.vStr "u1"),
      ("created_at", Val.vStr "2024-01-02T03:04:05.000006"),
      ("updated_at", Val.vStr "2024-01-02T03:04:05.000006"),
      ("email", Val.vStr "a@b.c"), ("__class__", Val.vStr "User")]
      "__class__" = some (Val.vStr "User") ∧
    assocGet [("id", Val.vStr "u1"),
      ("created_at", Val.vStr "2024-01-02T03:04:05.000006"),
      ("updated_at", Val.vStr "2024-01-02T03:04:05.000006"),
      ("email", Val.vStr "a@b.c"), ("__class__", Val.vStr "User")]
      "_sa_instance_state" = none ∧
    assocGet [("id", Val.vStr "u1"),
      ("created_at", Val.vStr "2024-01-02T03:04:05.000006"),
      ("updated_at", Val.vStr "2024-01-02T03:04:05.000006"),
      ("email", Val.vStr "a@b.c"), ("__class__", Val.vStr "User")]
      "created_at" = some (Val.vStr (fmtTime ⟨2024, 1, 2, 3, 4, 5, 6⟩)) := by
  have h := to_dict_shape "User" true
    [("id", Val.vStr "u1"),
     ("created_at", Val.vTime ⟨2024, 1, 2, 3, 4, 5, 6⟩),
     ("updated_at", Val.vTime ⟨2024, 1, 2, 3, 4, 5, 6⟩),
     ("email", Val.vStr "a@b.c"), ("password", Val.vStr "secret")]
    [("id", Val.vStr "u1"),
     ("created_at", Val.vStr "2024-01-02T03:04:05.000006"),
     ("updated_at", Val.vStr "2024-01-02T03:04:05.000006"),
     ("email", Val.vStr "a@b.c"), ("__class__", Val.vStr "User")]
    (by decide)
  exact ⟨h.1, h.2.1, h.2.2.1 ⟨2024, 1, 2, 3, 4, 5, 6⟩ (by decide)⟩

theorem not_mem_keys_assocSet {α : Type} (l : List (String × α))
    (k k' : String) (v : α) (h1 : k' ∉ keysOf l) (h2 : k' ≠ k) :
    k' ∉ keysOf (assocSet l k v) := by
  rw [keysOf_assocSet]
  by_cases hm : k ∈ keysOf l
  · rw [if_pos hm]
    exact h1
  · rw [if_neg hm]
    simp only [List.mem_append, List.mem_singleton]
    rintro (h | h)
    · exact h1 h
    · exact h2 h

theorem to_dict_isSome (cn : String) (sec : Bool) (m : Attrs) (t1 t2 : DateTime)
    (h1 : assocGet m "created_at" = some (Val.vTime t1))
    (h2 : assocGet m "updated_at" = some (Val.vTime t2)) :
    ∃ d, to_dict cn sec m = some d := by
  have hs1 : strfStep m "created_at" =
      some (assocSet m "created_at" (Val.vStr (fmtTime t1))) := by
    unfold strfStep
    rw [h1]
  have hs2 : strfStep (assocSet m "created_at" (Val.vStr (fmtTime t1)))
      "updated_at" =
      some (assocSet (assocSet m "created_at" (Val.vStr (fmtTime t1)))
        "updated_at" (Val.vStr (fmtTime t2))) := by
    unfold strfStep
    rw [assocGet_set_ne _ _ _ _ (by decide), h2]
  cases sec with
  | true =>
    refine ⟨assocDel (assocDel (assocSet (assocSet (assocSet m "created_at"
      (Val.vStr (fmtTime t1))) "updated_at" (Val.vStr (fmtTime t2)))
      "__class__" (Val.vStr cn)) "_sa_instance_state") "password", ?_⟩
    simp only [to_dict, hs1, hs2]
    simp
  | false =>
    refine ⟨assocDel (assocSet (assocSet (assocSet m "created_at"
      (Val.vStr (fmtTime t1))) "updated_at" (Val.vStr (fmtTime t2)))
      "__class__" (Val.vStr cn)) "_sa_instance_state", ?_⟩
    simp only [to_dict, hs1, hs2]
    simp

theorem body_entries_ok (body : Attrs)
    (hnca : "created_at" ∉ keysOf body) (hnua : "updated_at" ∉ keysOf body)
    (hncl : "__class__" ∉ keysOf body) :
    ∀ kv ∈ body, kv.1 ≠ "__class__" ∧ TrOK kv := by
  intro kv hkv
  have hkmem : kv.1 ∈ keysOf body := List.mem_map.mpr ⟨kv, hkv, rfl⟩
  refine ⟨fun hh => hncl (hh ▸ hkmem), fun hor => ?_⟩
  rcases hor with hc | hu
  · exact absurd (hc ▸ hkmem) hnca
  · exact absurd (hu ▸ hkmem) hnua

theorem city_fk_forced (st : Storage) (state_id : String) (body : Attrs)
    (ctx : Ctx) (state : Attrs)
    (hstate : assocGet st.states state_id = some state)
    (hsid : assocGet state "id" = some (Val.vStr state_id))
    (hnb : body ≠ []) (hnd : (keysOf body).Nodup)
    (hnca : "created_at" ∉ keysOf body) (hnua : "updated_at" ∉ keysOf body)
    (hncl : "__class__" ∉ keysOf body)
    (hname : hasKey body "name" = true) :
    ∃ e2 d, create_obj_city st state_id (some body) ctx =
      (HResp.created d, some e2) ∧
      assocGet e2 "state_id" = some (Val.vStr state_id) := by
  have hfalsy : jsonFalsy (some body) = false := by
    cases body with
    | nil => exact absurd rfl hnb
    | cons p r => rfl
  obtain ⟨e, he, hkey⟩ := baseInit_spec ctx.genId ctx.now body
    (body_entries_ok body hnca hnua hncl) hnd
  have hec : assocGet e "created_at" = some (Val.vTime ctx.now) := by
    rw [hkey "created_at", assocGet_eq_none_of_not_mem _ _ hnca]
    simp [assocGet]
  have heu : assocGet e "updated_at" = some (Val.vTime ctx.now) := by
    rw [hkey "updated_at", assocGet_eq_none_of_not_mem _ _ hnua]
    simp [assocGet]
  obtain ⟨d, hd⟩ := to_dict_isSome "City" true
    (modelSave ctx.utcNow (assocSet e "state_id" (Val.vStr state_id)))
    ctx.now ctx.utcNow
    (by
      unfold modelSave
      rw [assocGet_set_ne _ _ _ _ (by decide),
          assocGet_set_ne _ _ _ _ (by decide)]
      exact hec)
    (by
      unfold modelSave
      exact assocGet_set_self _ _ _)
  refine ⟨modelSave ctx.utcNow (assocSet e "state_id" (Val.vStr state_id)), d,
    ?_, ?_⟩
  · simp only [create_obj_city, hstate, hfalsy, Bool.false_eq_true, if_false,
      Option.getD_some, hname, not_true, he, hsid, hd]
  · unfold modelSave
    rw [assocGet_set_ne _ _ _ _ (by decide)]
    exact assocGet_set_self _ _ _

theorem place_fk_forced (st : Storage) (city_id : String) (body : Attrs)
    (ctx : Ctx) (c : Attrs) (uid : String) (u : Attrs)
    (hcity : assocGet st.cities city_id = some c)
    (hnb : body ≠ []) (hnd : (keysOf body).Nodup)
    (hnca : "created_at" ∉ keysOf body) (hnua : "updated_at" ∉ keysOf body)
    (hncl : "__class__" ∉ keysOf body)
    (huidb : assocGet body "user_id" = some (Val.vStr uid))
    (huser : assocGet st.users uid = some u)
    (hname : hasKey body "name" = true) :
    ∃ e2 d, create_obj_place st city_id (some body) ctx =
      (HResp.created d, some e2) ∧
      assocGet e2 "city_id" = some (Val.vStr city_id) := by
  have hfalsy : jsonFalsy (some body) = false := by
    cases body with
    | nil => exact absurd rfl hnb
    | cons p r => rfl
  have huidk : hasKey body "user_id" = true := by
    unfold hasKey
    rw [huidb]
    rfl
  have hndk : (keysOf (assocSet body "city_id" (Val.vStr city_id))).Nodup :=
    nodup_keys_assocSet _ _ _ hnd
  have hentk : ∀ kv ∈ assocSet body "city_id" (Val.vStr city_id),
      kv.1 ≠ "__class__" ∧ TrOK kv := by
    intro kv hkv
    rcases mem_assocSet _ _ _ _ hkv with heq | hmem
    · subst heq
      refine ⟨(by decide : ("city_id" : String) ≠ "__class__"), fun hor => ?_⟩
      rcases hor with hc | hu
      · exact absurd (show ("city_id" : String) = "created_at" from hc) (by decide)
      · exact absurd (show ("city_id" : String) = "updated_at" from hu) (by decide)
    · exact body_entries_ok body hnca hnua hncl kv hmem
  obtain ⟨e, he, hkey⟩ := baseInit_spec ctx.genId ctx.now
    (assocSet body "city_id" (Val.vStr city_id)) hentk hndk
  have hkuid : assocGet (assocSet body "city_id" (Val.vStr city_id))
      "user_id" = some (Val.vStr uid) := by
    rw [assocGet_set_ne _ _ _ _ (by decide)]
    exact huidb
  have hnck : "created_at" ∉ keysOf (assocSet body "city_id" (Val.vStr city_id)) :=
    not_mem_keys_assocSet _ _ _ _ hnca (by decide)
  have hnuk : "updated_at" ∉ keysOf (assocSet body "city_id" (Val.vStr city_id)) :=
    not_mem_keys_assocSet _ _ _ _ hnua (by decide)
  have hec : assocGet e "created_at" = some (Val.vTime ctx.now) := by
    rw [hkey "created_at", assocGet_eq_none_of_not_mem _ _ hnck]
    simp [assocGet]
  have heu : assocGet e "updated_at" = some (Val.vTime ctx.now) := by
    rw [hkey "updated_at", assocGet_eq_none_of_not_mem _ _ hnuk]
    simp [assocGet]
  have hcid : assocGet e "city_id" = some (Val.vStr city_id) := by
    rw [hkey "city_id", assocGet_set_self]
    show some (trV "city_id" (Val.vStr city_id)) = some (Val.vStr city_id)
    rw [trV, if_neg (by decide)]
  obtain ⟨d, hd⟩ := to_dict_isSome "Place" true (modelSave ctx.utcNow e)
    ctx.now ctx.utcNow
    (by
      unfold modelSave
      rw [assocGet_set_ne _ _ _ _ (by decide)]
      exact hec)
    (by
      unfold modelSave
      exact assocGet_set_self _ _ _)
  refine ⟨modelSave ctx.utcNow e, d, ?_, ?_⟩
  · simp only [create_obj_place, hcity, hfalsy, Bool.false_eq_true, if_false,
      Option.getD_some, hname, huidk, not_true, hkuid, huser, he, hd]
  · unfold modelSave
    rw [assocGet_set_ne _ _ _ _ (by decide)]
    exact hcid

theorem review_fk_forced (st : Storage) (place_id : String) (body : Attrs)
    (ctx : Ctx) (p : PlaceRec) (uid : String) (u : Attrs)
    (hplace : assocGet st.places place_id = some p)
    (hnb : body ≠ []) (hnd : (keysOf body).Nodup)
    (hnca : "created_at" ∉ keysOf body) (hnua : "updated_at" ∉ keysOf body)
    (hncl : "__class__" ∉ keysOf body)
    (huidb : assocGet body "user_id" = some (Val.vStr uid))
    (huser : assocGet st.users uid = some u)
    (htext : hasKey body "text" = true) :
    ∃ e2 d, create_obj_review st place_id (some body) ctx =
      (HResp.created d, some e2) ∧
      assocGet e2 "place_id" = some (Val.vStr place_id) := by
  have hfalsy : jsonFalsy (some body) = false := by
    cases body with
    | nil => exact absurd rfl hnb
    | cons q r => rfl
  have huidk : hasKey body "user_id" = true := by
    unfold hasKey
    rw [huidb]
    rfl
  have hndk : (keysOf (assocSet body "place_id" (Val.vStr place_id))).Nodup :=
    nodup_keys_assocSet _ _ _ hnd
  have hentk : ∀ kv ∈ assocSet body "place_id" (Val.vStr place_id),
      kv.1 ≠ "__class__" ∧ TrOK kv := by
    intro kv hkv
    rcases mem_assocSet _ _ _ _ hkv with heq | hmem
    · subst heq
      refine ⟨(by decide : ("place_id" : String) ≠ "__class__"), fun hor => ?_⟩
      rcases hor with hc | hu
      · exact absurd (show ("place_id" : String) = "created_at" from hc) (by decide)
      · exact absurd (show ("place_id" : String) = "updated_at" from hu) (by decide)
    · exact body_entries_ok body hnca hnua hncl kv hmem
  obtain ⟨e, he, hkey⟩ := baseInit_spec ctx.genId ctx.now
    (assocSet body "place_id" (Val.vStr place_id)) hentk hndk
  have hkuid : assocGet (assocSet body "place_id" (Val.vStr place_id))
      "user_id" = some (Val.vStr uid) := by
    rw [assocGet_set_ne _ _ _ _ (by decide)]
    exact huidb
  have hnck : "created_at" ∉ keysOf (assocSet body "place_id" (Val.vStr place_id)) :=
    not_mem_keys_assocSet _ _ _ _ hnca (by decide)
  have hnuk : "updated_at" ∉ keysOf (assocSet body "place_id" (Val.vStr place_id)) :=
    not_mem_keys_assocSet _ _ _ _ hnua (by decide)
  have hec : assocGet e "created_at" = some (Val.vTime ctx.now) := by
    rw [hkey "created_at", assocGet_eq_none_of_not_mem _ _ hnck]
    simp [assocGet]
  have heu : assocGet e "updated_at" = some (Val.vTime ctx.now) := by
    rw [hkey "updated_at", assocGet_eq_none_of_not_mem _ _ hnuk]
    simp [assocGet]
  have hpid : assocGet e "place_id" = some (Val.vStr place_id) := by
    rw [hkey "place_id", assocGet_set_self]
    show some (trV "place_id" (Val.vStr place_id)) = some (Val.vStr place_id)
    rw [trV, if_neg (by decide)]
  obtain ⟨d, hd⟩ := to_dict_isSome "Review" true (modelSave ctx.utcNow e)
    ctx.now ctx.utcNow
    (by
      unfold modelSave
      rw [assocGet_set_ne _ _ _ _ (by decide)]
      exact hec)
    (by
      unfold modelSave
      exact assocGet_set_self _ _ _)
  refine ⟨modelSave ctx.utcNow e, d, ?_, ?_⟩
  · simp only [create_obj_review, hplace, hfalsy, Bool.false_eq_true, if_false,
      Option.getD_some, htext, huidk, not_true, hkuid, huser, he, hd]
  · unfold modelSave
    rw [assocGet_set_ne _ _ _ _ (by decide)]
    exact hpid

/-- C10: nested-collection POSTs force the parent foreign key from the
URL.  Under the stated well-formedness of the body (a non-empty object
with unique keys, no timestamp or discriminator overrides) and resident
parents, the created City's `state_id`, the created Place's `city_id`
and the created Review's `place_id` equal the id taken from the URL,
whatever the body supplies for them. -/
theorem nested_post_forces_fk :
    (∀ st state_id body ctx state,
      assocGet st.states state_id = some state →
      assocGet state "id" = some (Val.vStr state_id) →
      body ≠ [] → (keysOf body).Nodup →
      "created_at" ∉ keysOf body → "updated_at" ∉ keysOf body →
      "__class__" ∉ keysOf body → hasKey body "name" = true →
      ∃ e2 d, create_obj_city st state_id (some body) ctx =
        (HResp.created d, some e2) ∧
        assocGet e2 "state_id" = some (Val.vStr state_id)) ∧
    (∀ st city_id body ctx c uid u,
      assocGet st.cities city_id = some c →
      body ≠ [] → (keysOf body).Nodup →
      "created_at" ∉ keysOf body → "updated_at" ∉ keysOf body →
      "__class__" ∉ keysOf body →
      assocGet body "user_id" = some (Val.vStr uid) →
      assocGet st.users uid = some u → hasKey body "name" = true →
      ∃ e2 d, create_obj_place st city_id (some body) ctx =
        (HResp.created d, some e2) ∧
        assocGet e2 "city_id" = some (Val.vStr city_id)) ∧
    (∀ st place_id body ctx p uid u,
      assocGet st.places place_id = some p →
      body ≠ [] → (keysOf body).Nodup →
      "created_at" ∉ keysOf body → "updated_at" ∉ keysOf body →
      "__class__" ∉ keysOf body →
      assocGet body "user_id" = some (Val.vStr uid) →
      assocGet st.users uid = some u → hasKey body "text" = true →
      ∃ e2 d, create_obj_review st place_id (some body) ctx =
        (HResp.created d, some e2) ∧
        assocGet e2 "place_id" = some (Val.vStr place_id)) :=
  ⟨fun st state_id body ctx state h1 h2 h3 h4 h5 h6 h7 h8 =>
    city_fk_forced st state_id body ctx state h1 h2 h3 h4 h5 h6 h7 h8,
   fun st city_id body ctx c uid u h1 h2 h3 h4 h5 h6 h7 h8 h9 =>
    place_fk_forced st city_id body ctx c uid u h1 h2 h3 h4 h5 h6 h7 h8 h9,
   fun st place_id body ctx p uid u h1 h2 h3 h4 h5 h6 h7 h8 h9 =>
    review_fk_forced st place_id body ctx p uid u h1 h2 h3 h4 h5 h6 h7 h8 h9⟩

/-- C10 witness: POST a City under state `s1` while the body tries to set
`state_id` to a different value. -/
theorem nested_post_forces_fk_witness :
    ∃ e2 d,
      create_obj_city ⟨[("s1", [("id", Val.vStr "s1")])], [], [], [], [], []⟩
        "s1"
        (some [("name", Val.vStr "Portland"), ("state_id", Val.vStr "OTHER")])
        ⟨"g1", ⟨2024, 1, 2, 3, 4, 5, 6⟩, ⟨2024, 6, 1, 0, 0, 0, 0⟩⟩ =
        (HResp.created d, some e2) ∧
      assocGet e2 "state_id" = some (Val.vStr "s1") :=
  nested_post_forces_fk.1
    ⟨[("s1", [("id", Val.vStr "s1")])], [], [], [], [], []⟩ "s1"
    [("name", Val.vStr "Portland"), ("state_id", Val.vStr "OTHER")]
    ⟨"g1", ⟨2024, 1, 2, 3, 4, 5, 6⟩, ⟨2024, 6, 1, 0, 0, 0, 0⟩⟩
    [("id", Val.vStr "s1")]
    (by decide) (by decide) (by decide) (by decide) (by decide) (by decide)
    (by decide) (by decide)

/-- C9: the `/places_search` handler rejects with 400 "Not a JSON"
exactly when the body fails to parse (`request.get_json() is None`), so
a parseable empty object is accepted; and whenever the parsed body is
empty or supplies no truthy states/cities/amenities value, it returns
the serialization of every resident Place. -/
theorem search_places_spec (st : Storage) (body : Option Attrs) :
    ((search_places st body = HResp.badRequest "Not a JSON") ↔ body = none) ∧
    (∀ data ds, body = some data →
      (data.isEmpty = true ∨ (valFalsy (assocGet data "states") = true ∧
        valFalsy (assocGet data "cities") = true ∧
        valFalsy (assocGet data "amenities") = true)) →
      serializeAll "Place" (st.places.map (fun p => p.2.attrs)) = some ds →
      search_places st body = HResp.okList ds) := by
  constructor
  · constructor
    · intro h
      cases body with
      | none => rfl
      | some data =>
        exfalso
        simp only [search_places] at h
        split at h
        · split at h
          · exact HResp.noConfusion h
          · exact HResp.noConfusion h
        · split at h
          · split at h
            · exact HResp.noConfusion h
            · exact HResp.noConfusion h
          · exact HResp.noConfusion h
    · intro h
      subst h
      rfl
  · intro data ds hb hcond hser
    subst hb
    simp only [search_places]
    rw [if_pos hcond]
    simp only [hser]

/-- C9 witness: an unparseable body is rejected; a parseable empty object
is not, and yields every resident Place serialized. -/
theorem search_places_spec_witness :
    search_places
      ⟨[], [], [], [],
       [("p1", ⟨[("id", Val.vStr "p1"),
         ("created_at", Val.vTime ⟨2024, 1, 2, 3, 4, 5, 6⟩),
         ("updated_at", Val.vTime ⟨2024, 1, 2, 3, 4, 5, 6⟩)], []⟩)], []⟩
      none = HResp.badRequest "Not a JSON" ∧
    search_places
      ⟨[], [], [], [],
       [("p1", ⟨[("id", Val.vStr "p1"),
         ("created_at", Val.vTime ⟨2024, 1, 2, 3, 4, 5, 6⟩),
         ("updated_at", Val.vTime ⟨2024, 1, 2, 3, 4, 5, 6⟩)], []⟩)], []⟩
      (some []) =
      HResp.okList [[("id", Val.vStr "p1"),
        ("created_at", Val.vStr "2024-01-02T03:04:05.000006"),
        ("updated_at", Val.vStr "2024-01-02T03:04:05.000006"),
        ("__class__", Val.vStr "Place")]] :=
  ⟨(search_places_spec
      ⟨[], [], [], [],
       [("p1", ⟨[("id", Val.vStr "p1"),
         ("created_at", Val.vTime ⟨2024, 1, 2, 3, 4, 5, 6⟩),
         ("updated_at", Val.vTime ⟨2024, 1, 2, 3, 4, 5, 6⟩)], []⟩)], []⟩
      none).1.mpr rfl,
   (search_places_spec
      ⟨[], [], [], [],
       [("p1", ⟨[("id", Val.vStr "p1"),
         ("created_at", Val.vTime ⟨2024, 1, 2, 3, 4, 5, 6⟩),
         ("updated_at", Val.vTime ⟨2024, 1, 2, 3, 4, 5, 6⟩)], []⟩)], []⟩
      (some [])).2 []
      [[("id", Val.vStr "p1"),
        ("created_at", Val.vStr "2024-01-02T03:04:05.000006"),
        ("updated_at", Val.vStr "2024-01-02T03:04:05.000006"),
        ("__class__", Val.vStr "Place")]]
      rfl (Or.inl rfl) (by decide)⟩
